import Mathlib

/-!
Verification development for the rapro-backend retirement simulation core.

The Python source under `src/core/` is shallowly embedded below:
`Decimal` values become `ℚ`, Python dicts become association lists
(`List (key × value)`, insertion order preserved, first binding wins on
lookup, assignment replaces the first binding in place), optional values
become `Option`, and fallible constructors become `Except String`.
-/

namespace Rapro

/-! ## Association list helpers (Python `dict` semantics) -/

/-- Lookup of the first binding of a key, mirroring Python `d.get(k)` /
`k in d` on insertion-ordered dicts. -/
def alookup {α : Type} {β : Type} [DecidableEq α] : List (α × β) → α → Option β
  | [], _ => none
  | (k, v) :: rest, a => if k = a then some v else alookup rest a

/-- Assignment `d[k] = v` on a Python dict: replace the first binding in
place, or append a new binding at the end. -/
def setKey {α : Type} {β : Type} [DecidableEq α] : List (α × β) → α → β → List (α × β)
  | [], k, v => [(k, v)]
  | (a, b) :: rest, k, v => if a = k then (k, v) :: rest else (a, b) :: setKey rest k v

/-- Python `s.lower()` on ASCII field names, written over the character
list so that it evaluates by kernel reduction. -/
def strToLower (s : String) : String :=
  String.mk (s.data.map Char.toLower)

/-! ## Federal income tax (src/core/tax_csv_loader.py, `calculate_federal_tax`)

A `TaxBracket` is one row of `federal_tax_brackets_<year>.csv` after the
loader's `Decimal` conversion; the bracket list parameter corresponds to
the output of `get_federal_tax_brackets` (rows for one filing status,
sorted ascending by `min_income`). -/

structure TaxBracket where
  minIncome : ℚ
  maxIncome : ℚ
  rate : ℚ
deriving DecidableEq, Repr

/-- Sentinel used by the loader: a `max_income` at or above this value
represents an unbounded top bracket. -/
def bigSentinel : ℚ := 999999999

/-- The bracket-walking loop of `calculate_federal_tax`, carrying the
accumulated tax and the rate of the last bracket that contributed tax
(`current_bracket_rate`). -/
def fedTaxGo (income : ℚ) : List TaxBracket → ℚ → ℚ → ℚ × ℚ
  | [], tax, cur => (tax, cur)
  | b :: rest, tax, cur =>
    let bmax := if bigSentinel ≤ b.maxIncome then income else b.maxIncome
    if income ≤ b.minIncome then (tax, cur)
    else
      let tib := min income bmax - b.minIncome
      let tax' := if 0 < tib then tax + tib * b.rate else tax
      let cur' := if 0 < tib then b.rate else cur
      if income ≤ bmax then (tax', cur') else fedTaxGo income rest tax' cur'

/-- `TaxCSVLoader.calculate_federal_tax`: returns the tax amount and the
marginal bracket rate (initialised to `0.10`). -/
def calculate_federal_tax (brackets : List TaxBracket) (income : ℚ) : ℚ × ℚ :=
  fedTaxGo income brackets 0 (1 / 10)

/-- Formatting of the bracket label string: `f"{int(rate*100)}%"`. -/
def bracketLabel (rate : ℚ) : String :=
  toString ⌊rate * 100⌋ ++ "%"

/-- The bracket label string returned by `calculate_federal_tax`. -/
def calculate_federal_tax_label (brackets : List TaxBracket) (income : ℚ) : String :=
  bracketLabel (calculate_federal_tax brackets income).2

/-- Specification-side federal tax, written from the spec's words: walk
the brackets in ascending order, tax the portion of income within
`[lower, min(upper, income)]` at each bracket's rate, and treat the top
bracket's upper bound as unbounded. -/
def specFedTax (income : ℚ) : List TaxBracket → ℚ
  | [] => 0
  | [b] => b.rate * max 0 (income - b.minIncome)
  | b :: b' :: rest =>
    b.rate * max 0 (min income b.maxIncome - b.minIncome) + specFedTax income (b' :: rest)

/-- Specification-side bracket label: the rate of the last bracket that
contributed any tax (default when none did). -/
def specLastRate (income : ℚ) (d : ℚ) : List TaxBracket → ℚ
  | [] => d
  | [b] => if 0 < income - b.minIncome then b.rate else d
  | b :: b' :: rest =>
    specLastRate income (if 0 < min income b.maxIncome - b.minIncome then b.rate else d) (b' :: rest)

/-- Well-formedness of a loaded bracket table: non-negative ascending
contiguous brackets, every bracket non-degenerate, only the top bracket
carrying the unbounded sentinel. -/
def wfBrackets : List TaxBracket → Bool
  | [] => true
  | [b] => decide (0 ≤ b.minIncome) && decide (b.minIncome < b.maxIncome) &&
      decide (bigSentinel ≤ b.maxIncome)
  | b :: b' :: rest => decide (0 ≤ b.minIncome) && decide (b.minIncome < b.maxIncome) &&
      decide (b.maxIncome < bigSentinel) && decide (b.maxIncome = b'.minIncome) &&
      wfBrackets (b' :: rest)


/-! ## Roth conversion tax breakdown (src/core/roth_tax_calculator.py)

`RothTaxCalculator.calculate_year_taxes` (an identical copy lives in
`RothConversionProcessor._calculate_year_taxes` and inline in the
retirement-year loop of `process`).  The bracket table and the standard
deduction are the loader data for the scenario's filing status. -/

structure YearTaxes where
  regularIncomeTax : ℚ
  conversionTax : ℚ
  federalTax : ℚ
  taxBracketRate : ℚ
  taxableIncome : ℚ
  agi : ℚ
  magi : ℚ
deriving DecidableEq, Repr

/-- `calculate_year_taxes`: AGI is gross income plus taxable Social
Security plus the conversion amount; the federal tax with and without the
conversion are each computed on the standard-deduction-reduced, floored
taxable income; the conversion tax is their difference. -/
def calculate_year_taxes (brackets : List TaxBracket) (standardDeduction : ℚ)
    (grossIncome taxableSS conversionAmount : ℚ) : YearTaxes :=
  let agi := grossIncome + taxableSS + conversionAmount
  let agiWithoutConversion := grossIncome + taxableSS
  let regularTaxableIncome := max 0 (agiWithoutConversion - standardDeduction)
  let regularIncomeTax := (calculate_federal_tax brackets regularTaxableIncome).1
  let totalTaxableIncome := max 0 (agi - standardDeduction)
  let fed := calculate_federal_tax brackets totalTaxableIncome
  { regularIncomeTax := regularIncomeTax
    conversionTax := fed.1 - regularIncomeTax
    federalTax := fed.1
    taxBracketRate := fed.2
    taxableIncome := totalTaxableIncome
    agi := agi
    magi := agi }

/-! ## RMD calculation (src/core/roth_rmd_calculator.py, with an
identical copy in `RothConversionProcessor`)

`RMD_TABLE` is imported from `scenario_processor.py`, which is not part
of the sources here; following the spec it is an age-keyed table of IRS
life-expectancy factors covering ages 72-120, so it appears below as an
abstract `Int → Option ℚ` parameter (`none` = age outside the table's
range). -/

/-- A person as the RMD calculator sees it: only the birth year of the
birthdate matters (`none` = birthdate unknown). -/
structure Person where
  birthYear : Option Int
deriving DecidableEq, Repr

/-- An asset record, restricted to the fields the embedded computations
read.  `id` is `none` for a missing id; the synthetic Roth asset created
by `_prepare_assets_for_conversion` is marked by `isSyntheticRoth`. -/
structure Asset where
  id : Option Nat
  incomeType : String
  ownedBy : String
  rateOfReturn : ℚ
  currentAssetBalance : ℚ
  maxToConvert : Option ℚ
  isSyntheticRoth : Bool
deriving DecidableEq, Repr

def qualifiedStr : String := "Qualified"
def traditionalIraStr : String := "Traditional IRA"
def k401Str : String := "401(k)"
def sepIraStr : String := "SEP IRA"
def b403Str : String := "403(b)"
def inhTradStr : String := "Inherited Traditional"
def inhTradSpouseStr : String := "Inherited Traditional Spouse"
def inhTradNonSpouseStr : String := "Inherited Traditional Non-Spouse"
def primaryStr : String := "primary"

def rmdExactTypes : List String :=
  [qualifiedStr, traditionalIraStr, k401Str, sepIraStr, b403Str,
   inhTradStr, inhTradSpouseStr, inhTradNonSpouseStr]

def rmdLowerTypes : List String :=
  ["qualified", "401k", "traditional_ira", "sep_ira", "403b",
   "inherited traditional", "inherited traditional spouse",
   "inherited traditional non-spouse"]

/-- `requires_rmd`: the income type is in the explicit list, or its
lowercase form is in the lowercase set. -/
def requires_rmd (incomeType : String) : Bool :=
  rmdExactTypes.contains incomeType || rmdLowerTypes.contains (strToLower incomeType)

/-- `get_rmd_start_age` (SECURE 2.0 bands, from the birth year). -/
def get_rmd_start_age (birthYear : Int) : Int :=
  if birthYear ≤ 1950 then 72
  else if birthYear ≤ 1951 then 73
  else if birthYear ≤ 1959 then 73
  else 75

/-- The birthdate picked for an asset's owner: the client for
`owned_by == "primary"`, otherwise the spouse when present. -/
def ownerBirthYear (client : Person) (spouse : Option Person) (asset : Asset) : Option Int :=
  if asset.ownedBy = primaryStr then client.birthYear
  else (spouse.map Person.birthYear).join

/-- `calculate_rmd_for_asset`: zero unless the asset category requires an
RMD, the owner's birthdate is known, the owner has reached the start age
and the age is inside the life-expectancy table; otherwise the previous
year-end balance divided (exactly, in `ℚ`) by the table factor. -/
def calculate_rmd_for_asset (table : Int → Option ℚ) (client : Person) (spouse : Option Person)
    (asset : Asset) (previousYearBalance : ℚ) (ownerAge : Int) : ℚ :=
  if ¬ requires_rmd asset.incomeType then 0
  else
    match ownerBirthYear client spouse asset with
    | none => 0
    | some birthYear =>
      if ownerAge < get_rmd_start_age birthYear then 0
      else
        match table ownerAge with
        | none => 0
        | some factor => previousYearBalance / factor

/-! ## Medicare / IRMAA year computation
(src/core/roth_medicare_calculator.py `calculate_year_medicare`, and the
processor's `_calculate_year_medicare`)

`calculate_medicare_costs` (base premiums, threshold search, inflation,
joint doubling, annualisation) is taken as an abstract cost function
`costs : magi → year → (total_medicare, irmaa_surcharge)`; the embedded
part is the age gate and the two-year MAGI lookback that decide which
income is fed to it. -/

structure MedicareYear where
  medicareBase : ℚ
  partB : ℚ
  partD : ℚ
  irmaaSurcharge : ℚ
  irmaaBracketNumber : Nat
  totalMedicare : ℚ
deriving DecidableEq, Repr

/-- Assembly of the year's Medicare record from a
`(total_medicare, irmaa_surcharge)` cost pair. -/
def mkMedicareYear (c : ℚ × ℚ) : MedicareYear :=
  let medicareBase := c.1 - c.2
  { medicareBase := medicareBase
    partB := medicareBase * (72 / 100)
    partD := medicareBase * (28 / 100)
    irmaaSurcharge := c.2
    irmaaBracketNumber := 0
    totalMedicare := c.1 }

/-- `RothMedicareCalculator.calculate_year_medicare`: `None` below age 65
(a falsy/zero age counts as absent), else the costs computed on the
2-year-lookback MAGI (`magi_history[year-2]` when recorded, else the
current MAGI). -/
def calculate_year_medicare (costs : ℚ → Int → ℚ × ℚ) (year : Int) (primaryAge : Option Int)
    (magi : ℚ) (magiHistory : List (Int × ℚ)) : Option MedicareYear :=
  match primaryAge with
  | none => none
  | some age =>
    if age = 0 ∨ age < 65 then none
    else
      let lookbackMagi := (alookup magiHistory (year - 2)).getD magi
      some (mkMedicareYear (costs lookbackMagi year))

/-- `RothConversionProcessor._calculate_year_medicare`: records the
current MAGI in the history first, returns the zero record below age 65,
else computes on the lookback MAGI.  Returns the updated history and
`(medicare_base, irmaa_surcharge, total_medicare)`. -/
def processor_calculate_year_medicare (costs : ℚ → Int → ℚ × ℚ) (magiHistory : List (Int × ℚ))
    (year : Int) (primaryAge : Option Int) (magi : ℚ) :
    List (Int × ℚ) × (ℚ × ℚ × ℚ) :=
  let history := setKey magiHistory year magi
  match primaryAge with
  | none => (history, (0, 0, 0))
  | some age =>
    if age = 0 ∨ age < 65 then (history, (0, 0, 0))
    else
      let lookbackMagi := (alookup history (year - 2)).getD magi
      let c := costs lookbackMagi year
      (history, (c.1 - c.2, c.2, c.1))

/-! ## Roth conversion processor (src/core/roth_conversion_processor.py)

`RothConversionProcessor._calculate_asset_balances_with_growth` and the
pieces of `__init__` / `_prepare_assets_for_conversion` /
`_validate_conversion_params` that drive it.  `datetime.now().year`
becomes the explicit field `currentYear`.  The conversion map is keyed by
`str(asset_id)` for truthy ids and by `income_type` otherwise, modelled
as `Nat ⊕ String` keys.  A `projection_year`-indexed call sequence (the
`process` loops) is `runYears`. -/

structure Processor where
  currentYear : Int
  client : Person
  spouse : Option Person
  conversionStartYear : Int
  yearsToConvert : Int
  rothGrowthRate : ℚ
  maxAnnualAmount : ℚ
  rothWithdrawalAmount : ℚ
  rothWithdrawalStartYear : Option Int
  assets : List Asset
  assetConversionMap : List ((Nat ⊕ String) × ℚ)
  rmdTable : Int → Option ℚ

/-- The client birth year used for age arithmetic, with the source's
`current_year - 50` fallback for an unknown birthdate. -/
def clientBirthYearForAge (p : Processor) : Int :=
  (p.client.birthYear).getD (p.currentYear - 50)

/-- `start ≤ y < start + years_to_convert`. -/
def inConversionWindow (p : Processor) (y : Int) : Bool :=
  decide (p.conversionStartYear ≤ y) && decide (y < p.conversionStartYear + p.yearsToConvert)

/-- Per-asset rate normalisation: `if rate_of_return >= 1: rate /= 100`. -/
def normalizedRate (r : ℚ) : ℚ :=
  if 1 ≤ r then r / 100 else r

/-- The conversion deducted from one asset in one projection year:
`min(this asset's annual share, current balance)` when conversions are
enabled, the asset requires RMD, the year is inside the window and the
asset has a (truthy) id recorded in the conversion map; zero otherwise. -/
def assetAnnualConversionFor (p : Processor) (applyConversions : Bool) (asset : Asset)
    (projYear : Int) (balance : ℚ) : ℚ :=
  if applyConversions = true ∧ requires_rmd asset.incomeType = true
      ∧ inConversionWindow p projYear = true then
    match asset.id with
    | some i =>
      if i ≠ 0 then
        match alookup p.assetConversionMap (Sum.inl i) with
        | some assetTotalConversion =>
          min (assetTotalConversion / (p.yearsToConvert : ℚ)) balance
        | none => 0
      else 0
    | none => 0
  else 0

/-- Per-asset loop state: current balance, the previous year-end balance
used for RMDs, and (instrumentation) the running total credited to the
synthetic Roth ledger — the source adds exactly these amounts to its
threaded `roth_balance`, which no per-asset computation reads back. -/
structure AssetProjState where
  balance : ℚ
  prevBalance : ℚ
  converted : ℚ
deriving DecidableEq, Repr

/-- One projection year of the per-asset state machine (the body of the
`for yr in range(years_to_project)` loop): conversion deducted before
growth and credited to the Roth ledger, growth on the reduced balance,
then the RMD computed from the pre-growth prior-year-end balance
subtracted from the post-growth balance. -/
def projectionStep (p : Processor) (applyConversions : Bool) (asset : Asset) (projYear : Int)
    (s : AssetProjState) : AssetProjState :=
  let c := assetAnnualConversionFor p applyConversions asset projYear s.balance
  let balance1 := if 0 < c then s.balance - c else s.balance
  let converted1 := if 0 < c then s.converted + c else s.converted
  let balance2 := balance1 * (1 + normalizedRate asset.rateOfReturn)
  let projAge := projYear - clientBirthYearForAge p
  let rmd := calculate_rmd_for_asset p.rmdTable p.client p.spouse asset s.prevBalance projAge
  let balance3 := if 0 < rmd then balance2 - rmd else balance2
  { balance := balance3, prevBalance := balance3, converted := converted1 }

/-- Iterate `projectionStep` over `n` successive projection years
starting at `y + 1`. -/
def projectLoop (p : Processor) (applyConversions : Bool) (asset : Asset) :
    Int → Nat → AssetProjState → AssetProjState
  | _, 0, s => s
  | y, n + 1, s =>
    projectLoop p applyConversions asset (y + 1) n
      (projectionStep p applyConversions asset (y + 1) s)

/-- The processor's cross-year continuity ledgers
(`asset_balances_by_year` and `roth_balance_by_year`). -/
structure LedgerState where
  assetBalancesByYear : List (Int × List (Nat × ℚ))
  rothBalanceByYear : List (Int × ℚ)
deriving DecidableEq, Repr

/-- Starting balance and projection start year for one asset (source
lines picking the previous year's persisted ending balance when present,
else the current balance from the database projected from today). -/
def startingBalance (p : Processor) (st : LedgerState) (targetYear : Int) (asset : Asset) :
    ℚ × Int :=
  match alookup st.assetBalancesByYear (targetYear - 1) with
  | some yearMap =>
    match asset.id with
    | some i =>
      match alookup yearMap i with
      | some b => (b, targetYear - 1)
      | none => (asset.currentAssetBalance, p.currentYear)
    | none => (asset.currentAssetBalance, p.currentYear)
  | none => (asset.currentAssetBalance, p.currentYear)

structure AssetOut where
  startBal : ℚ
  projStart : Int
  endBal : ℚ
  converted : ℚ
  targetRmd : ℚ
deriving DecidableEq, Repr

/-- Full per-asset computation of one `_calculate_asset_balances_with_growth`
call: the current-year branch (conversion then growth, no in-loop RMD) or
the future-year projection loop, followed in both branches by the
target-year RMD computed from the loop's final `previous_balance` (future
targets) or the post-growth balance (current-year targets) and subtracted
when positive. -/
def assetCalc (p : Processor) (st : LedgerState) (applyConversions : Bool) (targetYear : Int)
    (asset : Asset) : AssetOut :=
  let sb := startingBalance p st targetYear asset
  let targetAge := targetYear - clientBirthYearForAge p
  if targetYear = p.currentYear then
    let c := assetAnnualConversionFor p applyConversions asset p.currentYear sb.1
    let balance1 := if 0 < c then sb.1 - c else sb.1
    let converted1 := if 0 < c then c else 0
    let balance2 := balance1 * (1 + normalizedRate asset.rateOfReturn)
    let targetRmd := calculate_rmd_for_asset p.rmdTable p.client p.spouse asset balance2 targetAge
    let endBal := if 0 < targetRmd then balance2 - targetRmd else balance2
    { startBal := sb.1, projStart := sb.2, endBal := endBal, converted := converted1,
      targetRmd := targetRmd }
  else
    let n := (targetYear - sb.2).toNat
    let s := projectLoop p applyConversions asset sb.2 n
      { balance := sb.1, prevBalance := sb.1, converted := 0 }
    let targetRmd :=
      calculate_rmd_for_asset p.rmdTable p.client p.spouse asset s.prevBalance targetAge
    let endBal := if 0 < targetRmd then s.balance - targetRmd else s.balance
    { startBal := sb.1, projStart := sb.2, endBal := endBal, converted := s.converted,
      targetRmd := targetRmd }

/-- Accumulator of the per-call loop over assets. -/
structure CallAcc where
  converted : ℚ
  rmdTotal : ℚ
  yearMap : List (Nat × ℚ)
deriving DecidableEq, Repr

/-- The loop over `self.assets`: synthetic Roth assets are skipped; each
asset's conversion credit and (positive) target-year RMD are accumulated
and its ending balance is written to the target year's balance map,
keyed by asset id, when conversions are applied and the id is present. -/
def calcAssetsGo (p : Processor) (st : LedgerState) (applyConversions : Bool) (targetYear : Int) :
    List Asset → CallAcc → CallAcc
  | [], acc => acc
  | asset :: rest, acc =>
    if asset.isSyntheticRoth then calcAssetsGo p st applyConversions targetYear rest acc
    else
      let out := assetCalc p st applyConversions targetYear asset
      let rmdAdd := if 0 < out.targetRmd then out.targetRmd else 0
      let yearMap' :=
        if applyConversions then
          match asset.id with
          | some i => setKey acc.yearMap i out.endBal
          | none => acc.yearMap
        else acc.yearMap
      calcAssetsGo p st applyConversions targetYear rest
        { converted := acc.converted + out.converted
          rmdTotal := acc.rmdTotal + rmdAdd
          yearMap := yearMap' }

structure BalancesResult where
  rmdTotal : ℚ
  rothBalance : ℚ
  taxFreeIncome : ℚ
  converted : ℚ
deriving DecidableEq, Repr

/-- One call of `_calculate_asset_balances_with_growth(target_year,
apply_conversions)`: runs every asset, then applies the Roth ledger
growth (skipped inside the conversion window), then the optional
tax-free withdrawal capped at the ledger balance, and persists the
per-asset and Roth ledgers for the next year.  The source threads
`roth_balance` through the asset loop; as no asset computation reads it,
the embedding equivalently adds the accumulated credits to the starting
ledger after the loop. -/
def calcBalances (p : Processor) (st : LedgerState) (targetYear : Int)
    (applyConversions : Bool) : BalancesResult × LedgerState :=
  let rothStart :=
    if targetYear = p.currentYear then 0
    else (alookup st.rothBalanceByYear (targetYear - 1)).getD 0
  let acc := calcAssetsGo p st applyConversions targetYear p.assets
    { converted := 0, rmdTotal := 0,
      yearMap := (alookup st.assetBalancesByYear targetYear).getD [] }
  let roth1 := rothStart + acc.converted
  let roth2 :=
    if 0 < roth1 ∧ applyConversions = true then
      if inConversionWindow p targetYear then roth1
      else roth1 * (1 + p.rothGrowthRate / 100)
    else roth1
  let w :=
    match p.rothWithdrawalStartYear with
    | some ws =>
      if ws ≠ 0 ∧ 0 < p.rothWithdrawalAmount ∧ ws ≤ targetYear then
        min p.rothWithdrawalAmount roth2
      else 0
    | none => 0
  let roth3 := roth2 - w
  let hasStores := applyConversions && p.assets.any (fun a => !a.isSyntheticRoth && a.id.isSome)
  let abyy :=
    if hasStores = true then setKey st.assetBalancesByYear targetYear acc.yearMap
    else st.assetBalancesByYear
  let rby :=
    if applyConversions = true then setKey st.rothBalanceByYear targetYear roth3
    else st.rothBalanceByYear
  ({ rmdTotal := acc.rmdTotal, rothBalance := roth3, taxFreeIncome := w,
     converted := acc.converted },
   { assetBalancesByYear := abyy, rothBalanceByYear := rby })

/-- The conversion-timeline driver: one `calcBalances` call with
conversions applied per simulated year, in ascending year order (the
`process` loops over pre-retirement and retirement years), returning the
total amount credited to the Roth ledger. -/
def runYears (p : Processor) : LedgerState → Int → Nat → ℚ × LedgerState
  | st, _, 0 => (0, st)
  | st, y, n + 1 =>
    let r := calcBalances p st y true
    let rest := runYears p r.2 (y + 1) n
    (r.1.converted + rest.1, rest.2)

/-- `_validate_conversion_params`: fails on a missing/falsy conversion
start year or a non-positive duration; silently moves a configured
withdrawal start year at or before the conversion end year to the first
year after the window.  Returns `(start_year, years_to_convert,
adjusted_withdrawal_start_year)`. -/
def validate_conversion_params (conversionStartYear : Option Int) (yearsToConvert : Int)
    (rothWithdrawalAmount : ℚ) (rothWithdrawalStartYear : Option Int) :
    Except String (Int × Int × Option Int) :=
  match conversionStartYear with
  | none => .error "Conversion start year is required"
  | some startYear =>
    if startYear = 0 then .error "Conversion start year is required"
    else if yearsToConvert ≤ 0 then .error "Years to convert must be positive"
    else
      let conversionEndYear := startYear + yearsToConvert - 1
      let adjusted :=
        match rothWithdrawalStartYear with
        | some w =>
          if w ≠ 0 ∧ 0 < rothWithdrawalAmount ∧ w ≤ conversionEndYear then
            some (conversionEndYear + 1)
          else some w
        | none => none
      .ok (startYear, yearsToConvert, adjusted)

/-- `Decimal.quantize(Decimal('1'))` under the default
`ROUND_HALF_EVEN` context: round to the nearest integer, ties to even. -/
def roundHalfEven (q : ℚ) : Int :=
  let f := ⌊q⌋
  if q - f < 1 / 2 then f
  else if (1 : ℚ) / 2 < q - f then f + 1
  else if f % 2 = 0 then f else f + 1

/-- Key used for an asset in the conversion map: `str(asset_id)` for a
truthy id, the income type otherwise. -/
def convKey (a : Asset) : Nat ⊕ String :=
  match a.id with
  | some i => if i ≠ 0 then Sum.inl i else Sum.inr a.incomeType
  | none => Sum.inr a.incomeType

/-- The asset scan of `_prepare_assets_for_conversion`: assets with a
truthy `max_to_convert` are validated against their balance, summed into
the total, and recorded in the conversion map. -/
def prepareGo : List Asset → ℚ → List ((Nat ⊕ String) × ℚ) →
    Except String (ℚ × List ((Nat ⊕ String) × ℚ))
  | [], tot, m => .ok (tot, m)
  | a :: rest, tot, m =>
    match a.maxToConvert with
    | none => prepareGo rest tot m
    | some mx =>
      if mx = 0 then prepareGo rest tot m
      else if a.currentAssetBalance < mx then
        .error "Conversion amount exceeds asset balance"
      else prepareGo rest (tot + mx) (setKey m (convKey a) mx)

/-- The synthetic Roth asset appended by `_prepare_assets_for_conversion`
(its string id `synthetic_roth` is modelled as an absent numeric id; it
is skipped by every balance computation via `isSyntheticRoth`). -/
def syntheticRothAsset (rothGrowthRate : ℚ) : Asset :=
  { id := none, incomeType := "roth_ira", ownedBy := primaryStr,
    rateOfReturn := rothGrowthRate, currentAssetBalance := 0,
    maxToConvert := none, isSyntheticRoth := true }

/-- `_prepare_assets_for_conversion`: totals the per-asset
`max_to_convert` amounts, derives the annual conversion, caps it at
`max_annual_amount` and, when the cap binds, extends `years_to_convert`
to the half-even-rounded `total / cap` if that is larger.  Returns
`(annual, total, conversion_map, years_to_convert, assets +
synthetic Roth)`. -/
def prepare_assets_for_conversion (assets : List Asset) (yearsToConvert : Int)
    (maxAnnualAmount rothGrowthRate : ℚ) :
    Except String (ℚ × ℚ × List ((Nat ⊕ String) × ℚ) × Int × List Asset) :=
  match prepareGo assets 0 [] with
  | .error e => .error e
  | .ok (totalConversion, m) =>
    let annual := totalConversion / (yearsToConvert : ℚ)
    let capped :=
      if 0 < maxAnnualAmount ∧ maxAnnualAmount < annual then
        let years' := roundHalfEven (totalConversion / maxAnnualAmount)
        (maxAnnualAmount, if yearsToConvert < years' then years' else yearsToConvert)
      else (annual, yearsToConvert)
    .ok (capped.1, totalConversion, m, capped.2, assets ++ [syntheticRothAsset rothGrowthRate])

/-- The truthy `max_to_convert` of an asset (`0` when absent or zero). -/
def amtOf (a : Asset) : ℚ :=
  match a.maxToConvert with
  | some mx => if mx = 0 then 0 else mx
  | none => 0

/-- Sum of the truthy `max_to_convert` amounts of a list of assets. -/
def sumAmts (assets : List Asset) : ℚ :=
  (assets.map amtOf).sum

/-- The conversion-map entries produced by one `prepareGo` pass,
appended by `setKey` in asset order. -/
def appendConvEntries : List ((Nat ⊕ String) × ℚ) → List Asset → List ((Nat ⊕ String) × ℚ)
  | m, [] => m
  | m, a :: rest =>
    match a.maxToConvert with
    | none => appendConvEntries m rest
    | some mx =>
      if mx = 0 then appendConvEntries m rest
      else appendConvEntries (setKey m (convKey a) mx) rest

/-! ## Inheritance / estate tax
(src/core/inheritance_tax_calculator.py and
`TaxCSVLoader.calculate_estate_tax`)

Final-year records are modelled as insertion-ordered `(field, value)`
lists holding the numeric fields (non-numeric fields, which the source
skips, are elided).  Per the module's docstring only the listed
investment categories enter the estate; all other balance fields are
excluded. -/

def balanceSuffixStr : String := "_balance"
def nonQualifiedCat : String := "Non-Qualified"
def rothCat : String := "Roth"
def inhRothSpouseCat : String := "Inherited Roth Spouse"
def inhRothNonSpouseCat : String := "Inherited Roth Non-Spouse"
def kQualifiedBal : String := "qualified_balance"
def kNonQualified : String := "non_qualified"
def kNonQualifiedBal : String := "non_qualified_balance"
def kNonQualifiedBal2 : String := "nonqualified_balance"
def kInhTradSpouseBal : String := "inherited_traditional_spouse_balance"
def kInhTradNonSpouseBal : String := "inherited_traditional_non_spouse_balance"
def kInhTradNonSpouseBal2 : String := "inherited_traditional_nonspouse_balance"
def kRothBal : String := "roth_balance"
def kRothIraBal : String := "roth_ira_balance"
def kInherited : String := "inherited"
def kInhRothSpouseBal : String := "inherited_roth_spouse_balance"
def kInhRothNonSpouseBal : String := "inherited_roth_non_spouse_balance"
def kInhRothNonSpouseBal2 : String := "inherited_roth_nonspouse_balance"

/-- The first list is a prefix of the second. -/
def prefixOfL {α : Type} [DecidableEq α] : List α → List α → Bool
  | [], _ => true
  | _ :: _, [] => false
  | b :: bs, a :: as => if a = b then prefixOfL bs as else false

/-- Substring test on character lists. -/
def infixOfL {α : Type} [DecidableEq α] : List α → List α → Bool
  | pat, [] => prefixOfL pat []
  | pat, a :: t => prefixOfL pat (a :: t) || infixOfL pat t

/-- Python `pat in s`. -/
def strContains (s pat : String) : Bool :=
  infixOfL pat.toList s.toList

/-- Python `s.endswith(pat)`. -/
def strEndsWith (s pat : String) : Bool :=
  prefixOfL pat.toList.reverse s.toList.reverse

/-- The `get_taxable_assets` classification chain on a lowercased field
name: `some (isTaxable, category)` for the recognised investment
categories, `none` for every other field. -/
def classifyKeyLower (kl : String) : Option (Bool × String) :=
  if strContains kl kQualifiedBal && ! strContains kl kNonQualified then
    some (true, qualifiedStr)
  else if strContains kl kNonQualifiedBal || strContains kl kNonQualifiedBal2 then
    some (true, nonQualifiedCat)
  else if strContains kl kInhTradSpouseBal then
    some (true, inhTradSpouseStr)
  else if strContains kl kInhTradNonSpouseBal || strContains kl kInhTradNonSpouseBal2 then
    some (true, inhTradNonSpouseStr)
  else if (strContains kl kRothBal || strContains kl kRothIraBal)
      && ! strContains kl kInherited then
    some (false, rothCat)
  else if strContains kl kInhRothSpouseBal then
    some (false, inhRothSpouseCat)
  else if strContains kl kInhRothNonSpouseBal || strContains kl kInhRothNonSpouseBal2 then
    some (false, inhRothNonSpouseCat)
  else none

/-- `d[cat] = d.get(cat, 0) + v` on an insertion-ordered dict. -/
def addToCat (m : List (String × ℚ)) (cat : String) (v : ℚ) : List (String × ℚ) :=
  match alookup m cat with
  | some old => setKey m cat (old + v)
  | none => m ++ [(cat, v)]

/-- The scan of `get_taxable_assets`: keep `_balance` fields with a
positive value, skip case-insensitive duplicates (`processed_keys`),
classify and accumulate into the taxable / non-taxable buckets. -/
def getTaxableAssetsGo :
    List (String × ℚ) → List String → List (String × ℚ) → List (String × ℚ) →
      List (String × ℚ) × List (String × ℚ)
  | [], _, tx, ntx => (tx, ntx)
  | (k, v) :: rest, processed, tx, ntx =>
    if ! strEndsWith k balanceSuffixStr then getTaxableAssetsGo rest processed tx ntx
    else if v ≤ 0 then getTaxableAssetsGo rest processed tx ntx
    else
      let kl := strToLower k
      if kl ∈ processed then getTaxableAssetsGo rest processed tx ntx
      else
        match classifyKeyLower kl with
        | some (true, cat) => getTaxableAssetsGo rest (kl :: processed) (addToCat tx cat v) ntx
        | some (false, cat) => getTaxableAssetsGo rest (kl :: processed) tx (addToCat ntx cat v)
        | none => getTaxableAssetsGo rest (kl :: processed) tx ntx

def sumVals (m : List (String × ℚ)) : ℚ :=
  (m.map Prod.snd).sum

structure TaxableAssets where
  taxable : List (String × ℚ)
  nonTaxable : List (String × ℚ)
  totalTaxable : ℚ
  totalNonTaxable : ℚ
  totalEstate : ℚ
deriving DecidableEq, Repr

/-- `InheritanceTaxCalculator.get_taxable_assets`. -/
def get_taxable_assets (yearData : List (String × ℚ)) : TaxableAssets :=
  let r := getTaxableAssetsGo yearData [] [] []
  { taxable := r.1, nonTaxable := r.2,
    totalTaxable := sumVals r.1, totalNonTaxable := sumVals r.2,
    totalEstate := sumVals r.1 + sumVals r.2 }

/-- One row of the federal estate tax bracket table. -/
structure EstateBracket where
  incomeMin : ℚ
  incomeMax : ℚ
  rate : ℚ
  baseTax : ℚ
deriving DecidableEq, Repr

/-- The bracket walk of `TaxCSVLoader.calculate_estate_tax`: the running
tax is overwritten with `base_tax + rate × min(v − min, max − min)` for
each bracket whose lower bound the value exceeds, stopping at the
bracket that contains the value. -/
def estateTaxGo (v : ℚ) : List EstateBracket → ℚ → ℚ
  | [], tax => tax
  | b :: rest, tax =>
    if v ≤ b.incomeMin then tax
    else
      let taxableAmount := min (v - b.incomeMin) (b.incomeMax - b.incomeMin)
      let tax' := b.baseTax + taxableAmount * b.rate
      if v ≤ b.incomeMax then tax' else estateTaxGo v rest tax'

/-- `TaxCSVLoader.calculate_estate_tax`. -/
def calculate_estate_tax (brackets : List EstateBracket) (v : ℚ) : ℚ :=
  match brackets with
  | [] => 0
  | _ => estateTaxGo v brackets 0

/-- `InheritanceTaxCalculator.calculate_inheritance_tax`. -/
def calculate_inheritance_tax (brackets : List EstateBracket) (totalTaxableEstate : ℚ) : ℚ :=
  if totalTaxableEstate ≤ 0 then 0
  else calculate_estate_tax brackets totalTaxableEstate

structure InheritanceReport where
  estateTax : ℚ
  totalTaxableEstate : ℚ
  totalNonTaxableEstate : ℚ
  totalEstateValue : ℚ
  netToHeirs : ℚ
  taxableAssets : List (String × ℚ)
  nonTaxableAssets : List (String × ℚ)
deriving DecidableEq, Repr

/-- `InheritanceTaxCalculator.generate_inheritance_report`. -/
def generate_inheritance_report (brackets : List EstateBracket)
    (yearData : List (String × ℚ)) : InheritanceReport :=
  let assets := get_taxable_assets yearData
  let estateTax := calculate_inheritance_tax brackets assets.totalTaxable
  { estateTax := estateTax
    totalTaxableEstate := assets.totalTaxable
    totalNonTaxableEstate := assets.totalNonTaxable
    totalEstateValue := assets.totalEstate
    netToHeirs := assets.totalEstate - estateTax
    taxableAssets := assets.taxable
    nonTaxableAssets := assets.nonTaxable }

/-- Specification-side deduplication: keep the first occurrence of each
case-insensitive field name. -/
def dedupByLower : List (String × ℚ) → List String → List (String × ℚ)
  | [], _ => []
  | (k, v) :: rest, seen =>
    if strToLower k ∈ seen then dedupByLower rest seen
    else (k, v) :: dedupByLower rest (strToLower k :: seen)

/-- Specification-side entry list: positive `_balance` fields, first
case-insensitive occurrence only. -/
def specEntries (yearData : List (String × ℚ)) : List (String × ℚ) :=
  dedupByLower (yearData.filter fun kv => strEndsWith kv.1 balanceSuffixStr && decide (0 < kv.2)) []

def isTaxableEntry (kv : String × ℚ) : Bool :=
  match classifyKeyLower (strToLower kv.1) with
  | some (true, _) => true
  | _ => false

def isNonTaxableEntry (kv : String × ℚ) : Bool :=
  match classifyKeyLower (strToLower kv.1) with
  | some (false, _) => true
  | _ => false

/-- Specification-side taxable estate: sum of the deduplicated positive
balance fields classified into a taxable category. -/
def specTotalTaxable (yearData : List (String × ℚ)) : ℚ :=
  (((specEntries yearData).filter isTaxableEntry).map Prod.snd).sum

/-- Specification-side non-taxable estate. -/
def specTotalNonTaxable (yearData : List (String × ℚ)) : ℚ :=
  (((specEntries yearData).filter isNonTaxableEntry).map Prod.snd).sum


/-! ## Concrete scenario data used by counterexamples and witnesses -/

/-- A Roth-type asset: positive balance, not RMD-eligible, no scheduled
conversion. -/
def rothSideAsset : Asset :=
  ⟨some 7, "roth_ira", primaryStr, 5, 200, none, false⟩

/-- A conversion plan over 2025-2026 with no convertible assets left and
a Roth ledger balance carried in from 2025. -/
def windowIdleProcessor : Processor :=
  { currentYear := 2024, client := ⟨none⟩, spouse := none, conversionStartYear := 2025,
    yearsToConvert := 2, rothGrowthRate := 5, maxAnnualAmount := 0,
    rothWithdrawalAmount := 0, rothWithdrawalStartYear := none,
    assets := [rothSideAsset], assetConversionMap := [], rmdTable := fun _ => none }

def windowIdleLedger : LedgerState :=
  ⟨[], [(2025, 100)]⟩

/-- A qualified asset scheduled to convert its full 100000 balance. -/
def depletedQualifiedAsset : Asset :=
  ⟨some 1, qualifiedStr, primaryStr, 0, 100000, some 100000, false⟩

/-- A life-expectancy table slice with factor 10 at ages 75 and 76. -/
def smallRmdTable : Int → Option ℚ :=
  fun a => if a = 75 ∨ a = 76 then some 10 else none

/-- A two-year conversion schedule (2025-2026) for a client born 1950,
whose RMDs deplete the asset below its scheduled annual amount. -/
def rmdDepletionProcessor : Processor :=
  { currentYear := 2024, client := ⟨some 1950⟩, spouse := none, conversionStartYear := 2025,
    yearsToConvert := 2, rothGrowthRate := 5, maxAnnualAmount := 0,
    rothWithdrawalAmount := 0, rothWithdrawalStartYear := none,
    assets := [depletedQualifiedAsset], assetConversionMap := [(Sum.inl 1, 100000)],
    rmdTable := smallRmdTable }


/-- The same schedule with no RMD interference: client birthdate
unknown, so every RMD is zero and the full amount converts. -/
def cleanConversionProcessor : Processor :=
  { currentYear := 2024, client := ⟨none⟩, spouse := none, conversionStartYear := 2025,
    yearsToConvert := 2, rothGrowthRate := 5, maxAnnualAmount := 0,
    rothWithdrawalAmount := 0, rothWithdrawalStartYear := none,
    assets := [depletedQualifiedAsset, syntheticRothAsset 5],
    assetConversionMap := [(Sum.inl 1, 100000)], rmdTable := smallRmdTable }


/-- Well-formedness of an estate bracket table: non-negative lower
bounds, non-degenerate contiguous ascending brackets. -/
def wfEstate : List EstateBracket → Bool
  | [] => true
  | [b] => decide (0 ≤ b.incomeMin) && decide (b.incomeMin < b.incomeMax)
  | b :: b' :: rest => decide (0 ≤ b.incomeMin) && decide (b.incomeMin < b.incomeMax) &&
      decide (b.incomeMax = b'.incomeMin) && wfEstate (b' :: rest)

/-- A final-year record with a case-insensitive duplicate, an
unclassified numeric-id balance and a non-balance field. -/
def sampleFinalYear : List (String × ℚ) :=
  [("qualified_balance", 500000), ("Qualified_Balance", 250000),
   ("roth_ira_balance", 100000), ("262_balance", 50),
   ("pension", 1), ("non_qualified_balance", 100)]

/-- A two-bracket estate tax table. -/
def sampleEstateBrackets : List EstateBracket :=
  [⟨0, 100000, 1 / 10, 0⟩, ⟨100000, 999999999, 2 / 10, 10000⟩]


/-- A life-expectancy table slice with factor 1 at ages 75 and 76
(drains the balance in one RMD). -/
def drainingRmdTable : Int → Option ℚ :=
  fun a => if a = 75 ∨ a = 76 then some 1 else none

/-- The 2025-2026 schedule whose first-year RMD drives the asset
negative, so the second window year receives no contribution. -/
def fullDepletionProcessor : Processor :=
  { currentYear := 2024, client := ⟨some 1950⟩, spouse := none, conversionStartYear := 2025,
    yearsToConvert := 2, rothGrowthRate := 5, maxAnnualAmount := 0,
    rothWithdrawalAmount := 0, rothWithdrawalStartYear := none,
    assets := [depletedQualifiedAsset], assetConversionMap := [(Sum.inl 1, 100000)],
    rmdTable := drainingRmdTable }


/-! ## Theorems -/

theorem wfBrackets_cons {b b' : TaxBracket} {rest : List TaxBracket}
    (h : wfBrackets (b :: b' :: rest) = true) :
    0 ≤ b.minIncome ∧ b.minIncome < b.maxIncome ∧ b.maxIncome < bigSentinel ∧
      b.maxIncome = b'.minIncome ∧ wfBrackets (b' :: rest) = true := by
  simp only [wfBrackets, Bool.and_eq_true, decide_eq_true_eq] at h
  tauto

theorem wfBrackets_single {b : TaxBracket} (h : wfBrackets [b] = true) :
    0 ≤ b.minIncome ∧ b.minIncome < b.maxIncome ∧ bigSentinel ≤ b.maxIncome := by
  simp only [wfBrackets, Bool.and_eq_true, decide_eq_true_eq] at h
  tauto

/-- If the income does not reach the first lower bound of a well-formed
bracket list, no bracket contributes: the spec tax is zero and the spec
label keeps its default. -/
theorem specFedTax_below (income : ℚ) :
    ∀ (bs : List TaxBracket), wfBrackets bs = true →
      (∀ b₀, bs.head? = some b₀ → income ≤ b₀.minIncome) →
      specFedTax income bs = 0 ∧ ∀ d, specLastRate income d bs = d := by
  intro bs
  induction bs with
  | nil => intro _ _; simp [specFedTax, specLastRate]
  | cons b rest ih =>
    intro hwf hle
    have hble : income ≤ b.minIncome := hle b rfl
    cases rest with
    | nil =>
      constructor
      · have : income - b.minIncome ≤ 0 := by linarith
        simp [specFedTax, max_eq_left this]
      · intro d
        have : ¬ 0 < income - b.minIncome := by linarith
        simp [specLastRate, this]
    | cons b' rest' =>
      obtain ⟨h0, hlt, hsmall, hchain, hwf'⟩ := wfBrackets_cons hwf
      have hmin : min income b.maxIncome ≤ b.minIncome := le_trans (min_le_left _ _) hble
      have hnext : income ≤ b'.minIncome := by
        rw [← hchain]; linarith
      have ihres := ih hwf' (by intro b₀ hb₀; simp at hb₀; subst hb₀; exact hnext)
      constructor
      · have : min income b.maxIncome - b.minIncome ≤ 0 := by linarith
        simp [specFedTax, max_eq_left this, ihres.1]
      · intro d
        have : ¬ 0 < min income b.maxIncome - b.minIncome := by linarith
        simp [specLastRate, this, ihres.2]

/-- Main refinement lemma: on a well-formed bracket list the source loop
computes the spec sum and the spec label, for any accumulator. -/
theorem fedTaxGo_eq_spec (income : ℚ) :
    ∀ (bs : List TaxBracket), wfBrackets bs = true →
      ∀ (tax cur : ℚ),
        fedTaxGo income bs tax cur = (tax + specFedTax income bs, specLastRate income cur bs) := by
  intro bs
  induction bs with
  | nil => intro _ tax cur; simp [fedTaxGo, specFedTax, specLastRate]
  | cons b rest ih =>
    intro hwf tax cur
    cases rest with
    | nil =>
      obtain ⟨h0, hlt, hbig⟩ := wfBrackets_single hwf
      by_cases hle : income ≤ b.minIncome
      · have hmax : income - b.minIncome ≤ 0 := by linarith
        have hpos : ¬ 0 < income - b.minIncome := by linarith
        simp [fedTaxGo, hle, specFedTax, specLastRate, max_eq_left hmax, hpos]
      · push_neg at hle
        have hpos : 0 < income - b.minIncome := by linarith
        have hmax : max 0 (income - b.minIncome) = income - b.minIncome :=
          max_eq_right (by linarith)
        simp only [fedTaxGo, if_pos hbig, not_le.mpr hle, if_neg (not_le.mpr hle),
          min_self, if_pos hpos, le_refl, if_pos]
        simp [specFedTax, specLastRate, hmax, hpos]
        ring
    | cons b' rest' =>
      obtain ⟨h0, hlt, hsmall, hchain, hwf'⟩ := wfBrackets_cons hwf
      have hnotbig : ¬ bigSentinel ≤ b.maxIncome := not_le.mpr hsmall
      by_cases hle : income ≤ b.minIncome
      · have hspec := specFedTax_below income (b :: b' :: rest') hwf
          (by intro b₀ hb₀; simp at hb₀; subst hb₀; exact hle)
        simp [fedTaxGo, hle, hnotbig, hspec.1, hspec.2 cur]
      · push_neg at hle
        by_cases hcov : income ≤ b.maxIncome
        · -- income is covered inside this bracket: the loop stops here
          have hmin : min income b.maxIncome = income := min_eq_left hcov
          have hpos : 0 < min income b.maxIncome - b.minIncome := by
            rw [hmin]; linarith
          have hnext : income ≤ b'.minIncome := by rw [← hchain]; exact hcov
          have hrest := specFedTax_below income (b' :: rest') hwf'
            (by intro b₀ hb₀; simp at hb₀; subst hb₀; exact hnext)
          simp only [fedTaxGo, hnotbig, if_false, if_neg (not_le.mpr hle), if_pos hpos,
            if_pos hcov, ite_false]
          have hmax : max 0 (min income b.maxIncome - b.minIncome)
              = min income b.maxIncome - b.minIncome := max_eq_right (le_of_lt hpos)
          simp [specFedTax, specLastRate, hmax, hpos, hrest.1, hrest.2]
          ring
        · -- income extends beyond this bracket: the loop continues
          push_neg at hcov
          have hmin : min income b.maxIncome = b.maxIncome := min_eq_right (le_of_lt hcov)
          have hpos : 0 < min income b.maxIncome - b.minIncome := by
            rw [hmin]; linarith
          have hmax : max 0 (min income b.maxIncome - b.minIncome)
              = min income b.maxIncome - b.minIncome := max_eq_right (le_of_lt hpos)
          rw [fedTaxGo]
          simp only [hnotbig, ite_false, if_neg (not_le.mpr hle), if_pos hpos,
            if_neg (not_le.mpr hcov)]
          rw [ih hwf' (tax + (min income b.maxIncome - b.minIncome) * b.rate) b.rate]
          simp [specFedTax, specLastRate, hmax, hpos]
          ring

theorem alookup_setKey_self {α β : Type} [DecidableEq α] (m : List (α × β)) (k : α) (v : β) :
    alookup (setKey m k v) k = some v := by
  induction m with
  | nil => simp [alookup, setKey]
  | cons p rest ih =>
    obtain ⟨a, b⟩ := p
    by_cases h : a = k
    · simp [setKey, h, alookup]
    · simp [setKey, h, alookup, ih]

theorem alookup_setKey_ne {α β : Type} [DecidableEq α] (m : List (α × β)) (k k' : α) (v : β)
    (h : k ≠ k') : alookup (setKey m k v) k' = alookup m k' := by
  induction m with
  | nil => simp [alookup, setKey, h]
  | cons p rest ih =>
    obtain ⟨a, b⟩ := p
    by_cases ha : a = k
    · subst ha
      simp [setKey, alookup, h]
    · simp [setKey, ha, alookup, ih]


/-- C7: on a well-formed bracket table, `calculate_federal_tax` walks the
brackets in ascending order, taxing the portion of income inside
`[lower, min(upper, income)]` at each bracket's rate with the top
bracket's upper bound unbounded; the returned label is the rate of the
last bracket that contributed tax, formatted as a percentage; and
non-positive taxable income yields zero tax. -/
theorem claim_C7_federal_tax_bracket_walk (brackets : List TaxBracket) (income : ℚ)
    (hwf : wfBrackets brackets = true) :
    calculate_federal_tax brackets income
        = (specFedTax income brackets, specLastRate income (1 / 10) brackets)
    ∧ calculate_federal_tax_label brackets income
        = bracketLabel (specLastRate income (1 / 10) brackets)
    ∧ (income ≤ 0 → (calculate_federal_tax brackets income).1 = 0) := by
  have hmain := fedTaxGo_eq_spec income brackets hwf 0 (1 / 10)
  refine ⟨?_, ?_, ?_⟩
  · unfold calculate_federal_tax
    rw [hmain]
    simp
  · unfold calculate_federal_tax_label calculate_federal_tax
    rw [hmain]
  · intro hneg
    unfold calculate_federal_tax
    rw [hmain]
    have hzero : specFedTax income brackets = 0 := by
      cases brackets with
      | nil => rfl
      | cons b rest =>
        have hhead : income ≤ b.minIncome := by
          cases rest with
          | nil => have h := wfBrackets_single hwf; linarith [h.1]
          | cons b' r => have h := wfBrackets_cons hwf; linarith [h.1]
        exact (specFedTax_below income (b :: rest) hwf
          (by intro b₀ hb₀; simp at hb₀; subst hb₀; exact hhead)).1
    simp [hzero]

/-- Witness for C7 on a concrete three-bracket table and income 60000. -/
theorem claim_C7_witness :
    wfBrackets [⟨0, 10000, 1 / 10⟩, ⟨10000, 50000, 2 / 10⟩, ⟨50000, 999999999999, 3 / 10⟩] = true
    ∧ calculate_federal_tax
        [⟨0, 10000, 1 / 10⟩, ⟨10000, 50000, 2 / 10⟩, ⟨50000, 999999999999, 3 / 10⟩] 60000
      = (12000, 3 / 10) := by
  refine ⟨by decide, ?_⟩
  rw [(claim_C7_federal_tax_bracket_walk
    [⟨0, 10000, 1 / 10⟩, ⟨10000, 50000, 2 / 10⟩, ⟨50000, 999999999999, 3 / 10⟩] 60000
    (by decide)).1]
  norm_num [specFedTax, specLastRate]

/-- C1: the per-year conversion-attributable tax equals the federal tax
on (gross income + taxable Social Security + conversion amount, less the
standard deduction, floored at 0) minus the federal tax on the income
alone; and it is zero in every year whose conversion amount is zero. -/
theorem claim_C1_conversion_tax (brackets : List TaxBracket) (sd g ss c : ℚ) :
    (calculate_year_taxes brackets sd g ss c).conversionTax
        = (calculate_federal_tax brackets (max 0 (g + ss + c - sd))).1
          - (calculate_federal_tax brackets (max 0 (g + ss - sd))).1
    ∧ (c = 0 → (calculate_year_taxes brackets sd g ss c).conversionTax = 0) := by
  constructor
  · rfl
  · intro hc
    subst hc
    simp [calculate_year_taxes]

/-- Witness for C1: a zero conversion amount yields a zero conversion
tax on a concrete one-bracket table. -/
theorem claim_C1_witness :
    (calculate_year_taxes [⟨0, 999999999999, 1 / 10⟩] 100 50 10 0).conversionTax = 0 :=
  (claim_C1_conversion_tax [⟨0, 999999999999, 1 / 10⟩] 100 50 10 0).2 rfl

/-- C4: the per-asset RMD is zero when the category does not require an
RMD, the owner's birthdate is unknown, the owner is below the
birth-year-dependent start age (72 / 73 / 75), or the age is outside the
life-expectancy table; otherwise it is the prior year-end balance
divided exactly by the table factor. -/
theorem claim_C4_rmd_characterisation (table : Int → Option ℚ) (client : Person)
    (spouse : Option Person) (asset : Asset) (prevBal : ℚ) (ownerAge : Int) :
    (requires_rmd asset.incomeType = false →
      calculate_rmd_for_asset table client spouse asset prevBal ownerAge = 0)
    ∧ (ownerBirthYear client spouse asset = none →
      calculate_rmd_for_asset table client spouse asset prevBal ownerAge = 0)
    ∧ (∀ birthYear, ownerBirthYear client spouse asset = some birthYear →
        ownerAge < get_rmd_start_age birthYear →
        calculate_rmd_for_asset table client spouse asset prevBal ownerAge = 0)
    ∧ (table ownerAge = none →
      calculate_rmd_for_asset table client spouse asset prevBal ownerAge = 0)
    ∧ (∀ birthYear factor, requires_rmd asset.incomeType = true →
        ownerBirthYear client spouse asset = some birthYear →
        get_rmd_start_age birthYear ≤ ownerAge →
        table ownerAge = some factor →
        calculate_rmd_for_asset table client spouse asset prevBal ownerAge = prevBal / factor)
    ∧ (∀ b : Int, (b ≤ 1950 → get_rmd_start_age b = 72)
        ∧ (1951 ≤ b → b ≤ 1959 → get_rmd_start_age b = 73)
        ∧ (1960 ≤ b → get_rmd_start_age b = 75)) := by
  refine ⟨?_, ?_, ?_, ?_, ?_, ?_⟩
  · intro h
    simp [calculate_rmd_for_asset, h]
  · intro h
    by_cases hr : requires_rmd asset.incomeType <;>
      simp [calculate_rmd_for_asset, h, hr]
  · intro birthYear hb hage
    by_cases hr : requires_rmd asset.incomeType <;>
      simp [calculate_rmd_for_asset, hb, hr, hage]
  · intro h
    by_cases hr : requires_rmd asset.incomeType
    · cases hb : ownerBirthYear client spouse asset with
      | none => simp [calculate_rmd_for_asset, hr, hb]
      | some birthYear =>
        by_cases hage : ownerAge < get_rmd_start_age birthYear <;>
          simp [calculate_rmd_for_asset, hr, hb, hage, h]
    · simp [calculate_rmd_for_asset, hr]
  · intro birthYear factor hr hb hage hf
    simp [calculate_rmd_for_asset, hr, hb, not_lt.mpr hage, hf]
  · intro b
    refine ⟨?_, ?_, ?_⟩
    · intro hb
      simp [get_rmd_start_age, hb]
    · intro hb1 hb2
      have h50 : ¬ b ≤ 1950 := by omega
      by_cases h51 : b ≤ 1951
      · simp [get_rmd_start_age, h50, h51]
      · simp [get_rmd_start_age, h50, h51, hb2]
    · intro hb
      have h50 : ¬ b ≤ 1950 := by omega
      have h51 : ¬ b ≤ 1951 := by omega
      have h59 : ¬ b ≤ 1959 := by omega
      simp [get_rmd_start_age, h50, h51, h59]

/-- Witness for C4: the spec's example — owner born 1951 turning 73 with
a 500000 prior-year balance and table factor 26.5 gets RMD
500000 / 26.5. -/
theorem claim_C4_witness :
    calculate_rmd_for_asset (fun a => if a = 73 then some (53 / 2) else none)
        ⟨some 1951⟩ none
        ⟨some 1, qualifiedStr, primaryStr, 5, 500000, none, false⟩ 500000 73
      = 500000 / (53 / 2) := by
  have h := claim_C4_rmd_characterisation (fun a => if a = 73 then some (53 / 2) else none)
    ⟨some 1951⟩ none ⟨some 1, qualifiedStr, primaryStr, 5, 500000, none, false⟩ 500000 73
  exact h.2.2.2.2.1 1951 (53 / 2) (by decide) (by rfl) (by decide) (by norm_num)

/-- C8: the yearly Medicare computation returns null (calculator) / zero
(processor) below age 65, and otherwise feeds the cost computation the
recorded MAGI of year Y-2 when that history entry exists and the
current-year MAGI when it does not. -/
theorem claim_C8_medicare_two_year_lookback (costs : ℚ → Int → ℚ × ℚ) (year : Int) (magi : ℚ)
    (hist : List (Int × ℚ)) :
    (calculate_year_medicare costs year none magi hist = none)
    ∧ (∀ age : Int, age = 0 ∨ age < 65 →
        calculate_year_medicare costs year (some age) magi hist = none)
    ∧ (∀ age : Int, ∀ m : ℚ, 65 ≤ age → alookup hist (year - 2) = some m →
        calculate_year_medicare costs year (some age) magi hist
          = some (mkMedicareYear (costs m year)))
    ∧ (∀ age : Int, 65 ≤ age → alookup hist (year - 2) = none →
        calculate_year_medicare costs year (some age) magi hist
          = some (mkMedicareYear (costs magi year)))
    ∧ ((processor_calculate_year_medicare costs hist year none magi).2 = (0, 0, 0))
    ∧ (∀ age : Int, age = 0 ∨ age < 65 →
        (processor_calculate_year_medicare costs hist year (some age) magi).2 = (0, 0, 0))
    ∧ (∀ age : Int, ∀ m : ℚ, 65 ≤ age → alookup hist (year - 2) = some m →
        (processor_calculate_year_medicare costs hist year (some age) magi).2
          = ((costs m year).1 - (costs m year).2, (costs m year).2, (costs m year).1))
    ∧ (∀ age : Int, 65 ≤ age → alookup hist (year - 2) = none →
        (processor_calculate_year_medicare costs hist year (some age) magi).2
          = ((costs magi year).1 - (costs magi year).2, (costs magi year).2,
             (costs magi year).1)) := by
  have hne : year ≠ year - 2 := by omega
  have hlook : alookup (setKey hist year magi) (year - 2) = alookup hist (year - 2) :=
    alookup_setKey_ne hist year (year - 2) magi hne
  have hage65 : ∀ age : Int, 65 ≤ age → ¬ (age = 0 ∨ age < 65) := by
    intro age h
    push_neg
    omega
  refine ⟨rfl, ?_, ?_, ?_, rfl, ?_, ?_, ?_⟩
  · intro age h
    simp [calculate_year_medicare, h]
  · intro age m h hm
    simp [calculate_year_medicare, hage65 age h, hm]
  · intro age h hm
    simp [calculate_year_medicare, hage65 age h, hm]
  · intro age h
    simp [processor_calculate_year_medicare, h]
  · intro age m h hm
    simp [processor_calculate_year_medicare, hage65 age h, hlook, hm]
  · intro age h hm
    simp [processor_calculate_year_medicare, hage65 age h, hlook, hm]

/-- Witness for C8: at age 70 in 2025 with history entry for 2023 the
recorded 2023 MAGI determines the costs; at age 60 the result is null. -/
theorem claim_C8_witness :
    calculate_year_medicare (fun m y => (m + y, m)) 2025 (some 70) 99 [(2023, 77)]
        = some (mkMedicareYear (77 + 2025, 77))
    ∧ calculate_year_medicare (fun m y => (m + y, m)) 2025 (some 60) 99 [(2023, 77)] = none := by
  have h := claim_C8_medicare_two_year_lookback (fun m y => (m + y, m)) 2025 99 [(2023, 77)]
  constructor
  · exact h.2.2.1 70 77 (by omega) (by norm_num [alookup])
  · exact h.2.1 60 (Or.inr (by omega))

/-- C10: a positive configured Roth withdrawal whose start year is at or
before the last conversion year is not rejected; the start year is
silently reset to `conversion_start_year + years_to_convert` and
withdrawals are taken only from that adjusted year onward (capped at the
ledger balance from then on). -/
theorem claim_C10_withdrawal_start_adjustment (startYear years : Int) (amount : ℚ) (w : Int)
    (hsy : 0 < startYear) (hyears : 0 < years) (hamount : 0 < amount) (hw : w ≠ 0)
    (hle : w ≤ startYear + years - 1) :
    validate_conversion_params (some startYear) years amount (some w)
        = .ok (startYear, years, some (startYear + years))
    ∧ (∀ (p : Processor) (st : LedgerState) (target : Int) (applyConv : Bool),
        p.rothWithdrawalStartYear = some (startYear + years) →
        target < startYear + years →
        (calcBalances p st target applyConv).1.taxFreeIncome = 0)
    ∧ (∀ (p : Processor) (st : LedgerState) (target : Int) (applyConv : Bool),
        p.rothWithdrawalStartYear = some (startYear + years) →
        p.rothWithdrawalAmount = amount →
        startYear + years ≤ target →
        (calcBalances p st target applyConv).1.taxFreeIncome
          = min amount ((calcBalances p st target applyConv).1.rothBalance
              + (calcBalances p st target applyConv).1.taxFreeIncome)) := by
  refine ⟨?_, ?_, ?_⟩
  · have hsy0 : startYear ≠ 0 := by omega
    have hy0 : ¬ years ≤ 0 := by omega
    have hcond : w ≠ 0 ∧ 0 < amount ∧ w ≤ startYear + years - 1 := ⟨hw, hamount, hle⟩
    simp only [validate_conversion_params, if_neg hsy0, if_neg hy0, if_pos hcond]
    have : startYear + years - 1 + 1 = startYear + years := by omega
    rw [this]
  · intro p st target applyConv hws htarget
    have hcond : ¬ (startYear + years ≠ 0 ∧ 0 < p.rothWithdrawalAmount
        ∧ startYear + years ≤ target) := by
      push_neg
      intro _ _
      omega
    simp only [calcBalances, hws]
    simp [hcond]
  · intro p st target applyConv hws hamt htarget
    have hcond : startYear + years ≠ 0 ∧ 0 < amount ∧ startYear + years ≤ target :=
      ⟨by omega, hamount, htarget⟩
    simp only [calcBalances, hws, hamt]
    rw [if_pos hcond, sub_add_cancel]

/-- Witness for C10's validation adjustment at concrete parameters. -/
theorem claim_C10_witness :
    validate_conversion_params (some 2025) 3 1000 (some 2026) = .ok (2025, 3, some 2028) :=
  (claim_C10_withdrawal_start_adjustment 2025 3 1000 2026 (by omega) (by omega) (by norm_num)
    (by omega) (by omega)).1


/-- The conversion amount is zero whenever conversions are disabled, the
asset does not require an RMD, or the year is outside the window. -/
theorem assetAnnualConversionFor_disabled (p : Processor) (applyConv : Bool) (asset : Asset)
    (projYear : Int) (balance : ℚ)
    (h : applyConv = false ∨ requires_rmd asset.incomeType = false
      ∨ inConversionWindow p projYear = false) :
    assetAnnualConversionFor p applyConv asset projYear balance = 0 := by
  rcases h with h | h | h <;> simp [assetAnnualConversionFor, h]

/-- The conversion amount under the enabled guards is
`min(scheduled annual share, balance)`. -/
theorem assetAnnualConversionFor_enabled (p : Processor) (asset : Asset)
    (projYear : Int) (balance : ℚ) (i : Nat) (tot : ℚ)
    (hr : requires_rmd asset.incomeType = true)
    (hw : inConversionWindow p projYear = true)
    (hid : asset.id = some i) (hi0 : i ≠ 0)
    (hmap : alookup p.assetConversionMap (Sum.inl i) = some tot) :
    assetAnnualConversionFor p true asset projYear balance
      = min (tot / (p.yearsToConvert : ℚ)) balance := by
  simp [assetAnnualConversionFor, hr, hw, hid, hi0, hmap]

/-- Closed form of one projection step when the conversion amount and
the RMD are non-negative. -/
theorem projectionStep_eq (p : Processor) (applyConv : Bool) (asset : Asset) (projYear : Int)
    (s : AssetProjState)
    (hc : 0 ≤ assetAnnualConversionFor p applyConv asset projYear s.balance)
    (hrmd : 0 ≤ calculate_rmd_for_asset p.rmdTable p.client p.spouse asset s.prevBalance
        (projYear - clientBirthYearForAge p)) :
    projectionStep p applyConv asset projYear s
      = { balance := (s.balance - assetAnnualConversionFor p applyConv asset projYear s.balance)
              * (1 + normalizedRate asset.rateOfReturn)
            - calculate_rmd_for_asset p.rmdTable p.client p.spouse asset s.prevBalance
                (projYear - clientBirthYearForAge p)
          prevBalance :=
            (s.balance - assetAnnualConversionFor p applyConv asset projYear s.balance)
              * (1 + normalizedRate asset.rateOfReturn)
            - calculate_rmd_for_asset p.rmdTable p.client p.spouse asset s.prevBalance
                (projYear - clientBirthYearForAge p)
          converted := s.converted
            + assetAnnualConversionFor p applyConv asset projYear s.balance } := by
  simp only [projectionStep]
  rcases eq_or_lt_of_le hc with hc0 | hcpos
  · rw [← hc0]
    rcases eq_or_lt_of_le hrmd with hr0 | hrpos
    · rw [← hr0]
      simp
    · simp [if_pos hrpos, lt_irrefl]
  · rw [if_pos hcpos, if_pos hcpos]
    rcases eq_or_lt_of_le hrmd with hr0 | hrpos
    · rw [← hr0]
      simp
    · simp [if_pos hrpos]

/-- C2: in each projected year the per-asset step first deducts
`min(the asset's scheduled annual conversion amount, current balance)`
and credits it to the Roth ledger (only when conversions are enabled,
the year lies in the window and the asset requires RMD), then grows the
post-conversion balance by `(1 + rate)`, then subtracts the RMD computed
from the pre-growth prior-year-end balance and current age from the
post-growth balance. -/
theorem claim_C2_projection_step_order (p : Processor) (asset : Asset) (projYear : Int)
    (s : AssetProjState) :
    (∀ (i : Nat) (tot : ℚ),
      requires_rmd asset.incomeType = true →
      inConversionWindow p projYear = true →
      asset.id = some i → i ≠ 0 →
      alookup p.assetConversionMap (Sum.inl i) = some tot →
      0 ≤ min (tot / (p.yearsToConvert : ℚ)) s.balance →
      0 ≤ calculate_rmd_for_asset p.rmdTable p.client p.spouse asset s.prevBalance
          (projYear - clientBirthYearForAge p) →
      projectionStep p true asset projYear s
        = { balance := (s.balance - min (tot / (p.yearsToConvert : ℚ)) s.balance)
                * (1 + normalizedRate asset.rateOfReturn)
              - calculate_rmd_for_asset p.rmdTable p.client p.spouse asset s.prevBalance
                  (projYear - clientBirthYearForAge p)
            prevBalance := (s.balance - min (tot / (p.yearsToConvert : ℚ)) s.balance)
                * (1 + normalizedRate asset.rateOfReturn)
              - calculate_rmd_for_asset p.rmdTable p.client p.spouse asset s.prevBalance
                  (projYear - clientBirthYearForAge p)
            converted := s.converted + min (tot / (p.yearsToConvert : ℚ)) s.balance })
    ∧ (∀ applyConv : Bool,
      (applyConv = false ∨ requires_rmd asset.incomeType = false
        ∨ inConversionWindow p projYear = false) →
      0 ≤ calculate_rmd_for_asset p.rmdTable p.client p.spouse asset s.prevBalance
          (projYear - clientBirthYearForAge p) →
      projectionStep p applyConv asset projYear s
        = { balance := s.balance * (1 + normalizedRate asset.rateOfReturn)
              - calculate_rmd_for_asset p.rmdTable p.client p.spouse asset s.prevBalance
                  (projYear - clientBirthYearForAge p)
            prevBalance := s.balance * (1 + normalizedRate asset.rateOfReturn)
              - calculate_rmd_for_asset p.rmdTable p.client p.spouse asset s.prevBalance
                  (projYear - clientBirthYearForAge p)
            converted := s.converted }) := by
  constructor
  · intro i tot hr hw hid hi0 hmap hcmin hrmd
    have hc := assetAnnualConversionFor_enabled p asset projYear s.balance i tot hr hw hid hi0 hmap
    rw [projectionStep_eq p true asset projYear s (by rw [hc]; exact hcmin) hrmd, hc]
  · intro applyConv hdis hrmd
    have hc := assetAnnualConversionFor_disabled p applyConv asset projYear s.balance hdis
    rw [projectionStep_eq p applyConv asset projYear s (by rw [hc]) hrmd, hc]
    simp

/-- Witness for C2: a concrete enabled step converting 50 out of 80 with
zero growth and no RMD. -/
theorem claim_C2_witness :
    projectionStep
      { currentYear := 2024, client := ⟨none⟩, spouse := none, conversionStartYear := 2025,
        yearsToConvert := 2, rothGrowthRate := 5, maxAnnualAmount := 0,
        rothWithdrawalAmount := 0, rothWithdrawalStartYear := none,
        assets := [], assetConversionMap := [(Sum.inl 5, 100)], rmdTable := fun _ => none }
      true
      ⟨some 5, qualifiedStr, primaryStr, 0, 80, some 100, false⟩
      2025 ⟨80, 80, 0⟩
      = ⟨30, 30, 50⟩ := by
  rw [(claim_C2_projection_step_order
      { currentYear := 2024, client := ⟨none⟩, spouse := none, conversionStartYear := 2025,
        yearsToConvert := 2, rothGrowthRate := 5, maxAnnualAmount := 0,
        rothWithdrawalAmount := 0, rothWithdrawalStartYear := none,
        assets := [], assetConversionMap := [(Sum.inl 5, 100)], rmdTable := fun _ => none }
      ⟨some 5, qualifiedStr, primaryStr, 0, 80, some 100, false⟩
      2025 ⟨80, 80, 0⟩).1 5 100
    (by decide) (by decide) rfl (by decide) (by rfl)
    (by norm_num) (by decide)]
  have hreq : requires_rmd qualifiedStr = true := by decide
  norm_num [calculate_rmd_for_asset, hreq, ownerBirthYear, primaryStr, normalizedRate]

/-- The original C6 claim fails on the code: in a conversion-window year
in which the ledger receives no contribution but holds a positive
balance, no growth is applied (the source skips growth in every window
year).  Concretely: the 2025 call converts 50000 and the RMD drives the
asset negative, so the window year 2026 receives no contribution while
the ledger holds 50000 — and it stays 50000 instead of growing to
52500. -/
theorem claim_C6_counterexample :
    (calcBalances fullDepletionProcessor
        (calcBalances fullDepletionProcessor ⟨[], []⟩ 2025 true).2 2026 true).1.converted = 0
    ∧ (alookup (calcBalances fullDepletionProcessor ⟨[], []⟩ 2025 true).2.rothBalanceByYear
        (2026 - 1)).getD 0 = 50000
    ∧ (calcBalances fullDepletionProcessor
        (calcBalances fullDepletionProcessor ⟨[], []⟩ 2025 true).2 2026 true).1.taxFreeIncome = 0
    ∧ (calcBalances fullDepletionProcessor
        (calcBalances fullDepletionProcessor ⟨[], []⟩ 2025 true).2 2026 true).1.rothBalance
      = 50000
    ∧ ¬ (calcBalances fullDepletionProcessor
          (calcBalances fullDepletionProcessor ⟨[], []⟩ 2025 true).2 2026 true).1.rothBalance
        = ((alookup (calcBalances fullDepletionProcessor ⟨[], []⟩ 2025 true).2.rothBalanceByYear
              (2026 - 1)).getD 0
            + (calcBalances fullDepletionProcessor
                (calcBalances fullDepletionProcessor ⟨[], []⟩ 2025 true).2 2026 true).1.converted)
          * (1 + fullDepletionProcessor.rothGrowthRate / 100) := by
  have hreq : requires_rmd qualifiedStr = true := by decide
  norm_num [calcBalances, calcAssetsGo, assetCalc, startingBalance, alookup, projectLoop,
    projectionStep, assetAnnualConversionFor, calculate_rmd_for_asset, hreq, ownerBirthYear,
    normalizedRate, clientBirthYearForAge, inConversionWindow, setKey, get_rmd_start_age,
    fullDepletionProcessor, depletedQualifiedAsset, drainingRmdTable]

/-- C6 (amended): the synthetic Roth ledger never grows in any
conversion-window year — in particular never in a year it receives a
contribution, since contributions only occur in window years; in every
non-window year in which its balance is positive it grows exactly once
at its configured rate; and the optional fixed withdrawal, from its
start year on, is deducted after growth and capped at the ledger
balance. -/
theorem claim_C6_roth_ledger_amended (p : Processor) (st : LedgerState) (target : Int)
    (htarget : target ≠ p.currentYear) :
    (∀ (asset : Asset) (applyConv : Bool) (projYear : Int) (s : AssetProjState),
      s.converted < (projectionStep p applyConv asset projYear s).converted →
      inConversionWindow p projYear = true)
    ∧ (inConversionWindow p target = true →
        (calcBalances p st target true).1.rothBalance
            + (calcBalances p st target true).1.taxFreeIncome
          = (alookup st.rothBalanceByYear (target - 1)).getD 0
            + (calcBalances p st target true).1.converted)
    ∧ (inConversionWindow p target = false →
        0 < (alookup st.rothBalanceByYear (target - 1)).getD 0
            + (calcBalances p st target true).1.converted →
        (calcBalances p st target true).1.rothBalance
            + (calcBalances p st target true).1.taxFreeIncome
          = ((alookup st.rothBalanceByYear (target - 1)).getD 0
              + (calcBalances p st target true).1.converted)
            * (1 + p.rothGrowthRate / 100))
    ∧ (∀ ws : Int, p.rothWithdrawalStartYear = some ws →
        (calcBalances p st target true).1.taxFreeIncome
          = if ws ≠ 0 ∧ 0 < p.rothWithdrawalAmount ∧ ws ≤ target then
              min p.rothWithdrawalAmount
                ((calcBalances p st target true).1.rothBalance
                  + (calcBalances p st target true).1.taxFreeIncome)
            else 0) := by
  refine ⟨?_, ?_, ?_, ?_⟩
  · intro asset applyConv projYear s h
    cases hw : inConversionWindow p projYear with
    | true => rfl
    | false =>
      exfalso
      have hc := assetAnnualConversionFor_disabled p applyConv asset projYear s.balance
        (Or.inr (Or.inr hw))
      simp [projectionStep, hc] at h
  · intro hwin
    simp only [calcBalances, if_neg htarget]
    rw [sub_add_cancel]
    split
    · simp [hwin]
    · rfl
  · intro hwin hpos
    simp only [calcBalances, if_neg htarget] at hpos ⊢
    rw [sub_add_cancel, if_pos ⟨hpos, trivial⟩, if_neg (by simp [hwin])]
  · intro ws hws
    simp only [calcBalances, if_neg htarget, hws]
    rw [sub_add_cancel]

/-- Witness for the amended C6 on a non-window year: the idle processor
at year 2028 (outside the 2025-2026 window) grows the carried ledger. -/
theorem claim_C6_witness :
    (calcBalances windowIdleProcessor ⟨[], [(2027, 100)]⟩ 2028 true).1.rothBalance
        + (calcBalances windowIdleProcessor ⟨[], [(2027, 100)]⟩ 2028 true).1.taxFreeIncome
      = ((alookup (⟨[], [(2027, 100)]⟩ : LedgerState).rothBalanceByYear (2028 - 1)).getD 0
          + (calcBalances windowIdleProcessor ⟨[], [(2027, 100)]⟩ 2028 true).1.converted)
        * (1 + windowIdleProcessor.rothGrowthRate / 100) := by
  have h := claim_C6_roth_ledger_amended windowIdleProcessor ⟨[], [(2027, 100)]⟩ 2028
    (by decide)
  refine h.2.2.1 (by decide) ?_
  have hreq : requires_rmd "roth_ira" = false := by decide
  norm_num [calcBalances, calcAssetsGo, assetCalc, startingBalance, alookup, projectLoop,
    projectionStep, assetAnnualConversionFor, calculate_rmd_for_asset, hreq, ownerBirthYear,
    normalizedRate, clientBirthYearForAge, inConversionWindow, setKey, windowIdleProcessor,
    rothSideAsset]

/-- Assets whose ids all differ from `i` leave the stored balance of `i`
unchanged. -/
theorem calcAssetsGo_yearMap_other (p : Processor) (st : LedgerState) (applyConv : Bool)
    (t : Int) (i : Nat) :
    ∀ (assets : List Asset) (acc : CallAcc),
      (∀ a ∈ assets, ∀ j : Nat, a.id = some j → j ≠ i) →
      alookup (calcAssetsGo p st applyConv t assets acc).yearMap i = alookup acc.yearMap i := by
  intro assets
  induction assets with
  | nil => intro acc _; rfl
  | cons a rest ih =>
    intro acc h
    have hrest : ∀ b ∈ rest, ∀ j : Nat, b.id = some j → j ≠ i := by
      intro b hb j hj
      exact h b (List.mem_cons_of_mem a hb) j hj
    by_cases hsyn : a.isSyntheticRoth = true
    · rw [calcAssetsGo, if_pos hsyn]
      exact ih _ hrest
    · rw [calcAssetsGo, if_neg hsyn]
      rw [ih _ hrest]
      cases hid : a.id with
      | none => simp [hid]
      | some j =>
        have hji : j ≠ i := h a (List.mem_cons_self a rest) j hid
        by_cases hac : applyConv = true
        · simp [hid, hac, alookup_setKey_ne _ j i _ hji]
        · simp [hid, hac]

/-- With conversions applied and distinct asset ids, the year map ends
up holding each asset's computed ending balance under its id. -/
theorem calcAssetsGo_yearMap_stored (p : Processor) (st : LedgerState) (t : Int) :
    ∀ (assets : List Asset) (acc : CallAcc) (a : Asset) (i : Nat),
      a ∈ assets → a.isSyntheticRoth = false → a.id = some i →
      (assets.filterMap Asset.id).Nodup →
      alookup (calcAssetsGo p st true t assets acc).yearMap i
        = some (assetCalc p st true t a).endBal := by
  intro assets
  induction assets with
  | nil => intro acc a i hmem _ _ _; cases hmem
  | cons b rest ih =>
    intro acc a i hmem hsyn hid hnd
    rcases List.mem_cons.mp hmem with rfl | hmem'
    · rw [calcAssetsGo, if_neg (by simp [hsyn])]
      have hcons : (a :: rest).filterMap Asset.id = i :: rest.filterMap Asset.id := by
        simp [List.filterMap_cons, hid]
      rw [hcons] at hnd
      have hnotin := (List.nodup_cons.mp hnd).1
      have hothers : ∀ c ∈ rest, ∀ j : Nat, c.id = some j → j ≠ i := by
        intro c hc j hj hji
        subst hji
        exact hnotin (List.mem_filterMap.mpr ⟨c, hc, hj⟩)
      rw [calcAssetsGo_yearMap_other p st true t i rest _ hothers]
      simp [hid, alookup_setKey_self]
    · have hnd' : (rest.filterMap Asset.id).Nodup := by
        cases hbid : b.id with
        | none => simpa [List.filterMap_cons, hbid] using hnd
        | some j =>
          rw [show (b :: rest).filterMap Asset.id = j :: rest.filterMap Asset.id by
            simp [List.filterMap_cons, hbid]] at hnd
          exact (List.nodup_cons.mp hnd).2
      by_cases hsynb : b.isSyntheticRoth = true
      · rw [calcAssetsGo, if_pos hsynb]
        exact ih _ a i hmem' hsyn hid hnd'
      · rw [calcAssetsGo, if_neg hsynb]
        exact ih _ a i hmem' hsyn hid hnd'

/-- After a conversion-applied call for year `y`, the target-year
balance map is persisted and holds each distinct-id asset's computed
ending balance. -/
theorem calcBalances_stored (p : Processor) (st : LedgerState) (y : Int)
    (asset : Asset) (i : Nat)
    (hmem : asset ∈ p.assets) (hsyn : asset.isSyntheticRoth = false)
    (hid : asset.id = some i)
    (hnd : (p.assets.filterMap Asset.id).Nodup) :
    (∃ ym, alookup (calcBalances p st y true).2.assetBalancesByYear y = some ym
        ∧ alookup ym i = some (assetCalc p st true y asset).endBal)
    ∧ ∀ a' : Asset, a'.id = some i →
        startingBalance p (calcBalances p st y true).2 (y + 1) a'
          = ((assetCalc p st true y asset).endBal, y) := by
  have hasStores : (p.assets.any fun a => !a.isSyntheticRoth && a.id.isSome) = true :=
    List.any_eq_true.mpr ⟨asset, hmem, by simp [hsyn, hid]⟩
  have habyy : (calcBalances p st y true).2.assetBalancesByYear
      = setKey st.assetBalancesByYear y
          (calcAssetsGo p st true y p.assets
            { converted := 0, rmdTotal := 0,
              yearMap := (alookup st.assetBalancesByYear y).getD [] }).yearMap := by
    simp [calcBalances, hasStores]
  have hstored := calcAssetsGo_yearMap_stored p st y p.assets
    { converted := 0, rmdTotal := 0,
      yearMap := (alookup st.assetBalancesByYear y).getD [] }
    asset i hmem hsyn hid hnd
  constructor
  · exact ⟨_, by rw [habyy, alookup_setKey_self], hstored⟩
  · intro a' hid'
    have hy1 : y + 1 - 1 = y := by omega
    simp only [startingBalance, habyy, hy1, alookup_setKey_self]
    simp [hid', hstored]

/-- C3: after the year-`y` conversion-timeline call, the asset's ending
balance is persisted under its id for year `y`, and the year-`y+1`
computation starts from exactly that persisted balance with projection
start `y` — independent of the asset's "today" database balance, so the
balance is never re-derived by re-growing it, including across the
pre-retirement/retirement seam. -/
theorem claim_C3_balance_continuity (p : Processor) (st : LedgerState) (y : Int)
    (asset : Asset) (i : Nat)
    (hmem : asset ∈ p.assets) (hsyn : asset.isSyntheticRoth = false)
    (hid : asset.id = some i)
    (hnd : (p.assets.filterMap Asset.id).Nodup) :
    (∃ ym, alookup (calcBalances p st y true).2.assetBalancesByYear y = some ym
        ∧ alookup ym i = some (assetCalc p st true y asset).endBal)
    ∧ ∀ b : ℚ,
        startingBalance p (calcBalances p st y true).2 (y + 1)
            { asset with currentAssetBalance := b }
          = ((assetCalc p st true y asset).endBal, y) := by
  have h := calcBalances_stored p st y asset i hmem hsyn hid hnd
  exact ⟨h.1, fun b => h.2 { asset with currentAssetBalance := b } hid⟩

/-- Witness for C3: in the RMD-depletion scenario the 2025 call persists
the 36000 ending balance and the 2026 computation starts from it (with
projection start 2025), whatever the database balance says. -/
theorem claim_C3_witness :
    startingBalance rmdDepletionProcessor
        (calcBalances rmdDepletionProcessor ⟨[], []⟩ 2025 true).2 (2025 + 1)
        { depletedQualifiedAsset with currentAssetBalance := 123 }
      = ((assetCalc rmdDepletionProcessor ⟨[], []⟩ true 2025 depletedQualifiedAsset).endBal, 2025)
    ∧ (assetCalc rmdDepletionProcessor ⟨[], []⟩ true 2025 depletedQualifiedAsset).endBal
      = 36000 := by
  constructor
  · exact (claim_C3_balance_continuity rmdDepletionProcessor ⟨[], []⟩ 2025
      depletedQualifiedAsset 1 (by simp [rmdDepletionProcessor])
      (by decide) (by decide) (by simp [rmdDepletionProcessor, depletedQualifiedAsset])).2 123
  · have hreq : requires_rmd qualifiedStr = true := by decide
    norm_num [assetCalc, startingBalance, alookup, projectLoop, projectionStep,
      assetAnnualConversionFor, calculate_rmd_for_asset, hreq, ownerBirthYear,
      normalizedRate, clientBirthYearForAge, inConversionWindow, get_rmd_start_age,
      rmdDepletionProcessor, depletedQualifiedAsset, smallRmdTable]

/-- Characterisation of a successful `prepareGo` pass: the total is the
sum of the truthy `max_to_convert` amounts, the map collects their
entries, and every scheduled amount passed the balance validation. -/
theorem prepareGo_ok :
    ∀ (assets : List Asset) (t0 : ℚ) (m0 : List ((Nat ⊕ String) × ℚ))
      (t : ℚ) (m : List ((Nat ⊕ String) × ℚ)),
      prepareGo assets t0 m0 = .ok (t, m) →
      t = t0 + sumAmts assets ∧ m = appendConvEntries m0 assets
        ∧ ∀ a ∈ assets, ∀ mx : ℚ, a.maxToConvert = some mx → mx ≠ 0 →
            mx ≤ a.currentAssetBalance := by
  intro assets
  induction assets with
  | nil =>
    intro t0 m0 t m h
    simp only [prepareGo, Except.ok.injEq, Prod.mk.injEq] at h
    obtain ⟨rfl, rfl⟩ := h
    refine ⟨by simp [sumAmts], rfl, by simp⟩
  | cons a rest ih =>
    intro t0 m0 t m h
    cases hmx : a.maxToConvert with
    | none =>
      rw [prepareGo, hmx] at h
      dsimp only at h
      obtain ⟨h1, h2, h3⟩ := ih t0 m0 t m h
      refine ⟨by simp [sumAmts, amtOf, hmx] at h1 ⊢; linarith,
        by rw [h2]; simp [appendConvEntries, hmx], ?_⟩
      intro b hb mx hbx h0
      rcases List.mem_cons.mp hb with rfl | hb'
      · rw [hmx] at hbx; cases hbx
      · exact h3 b hb' mx hbx h0
    | some mx =>
      by_cases h0 : mx = 0
      · subst h0
        rw [prepareGo, hmx] at h
        dsimp only at h
        rw [if_pos rfl] at h
        obtain ⟨h1, h2, h3⟩ := ih t0 m0 t m h
        refine ⟨by simp [sumAmts, amtOf, hmx] at h1 ⊢; linarith,
          by rw [h2]; simp [appendConvEntries, hmx], ?_⟩
        intro b hb mx' hbx hx0
        rcases List.mem_cons.mp hb with rfl | hb'
        · rw [hmx] at hbx
          cases hbx
          exact absurd rfl hx0
        · exact h3 b hb' mx' hbx hx0
      · by_cases hbal : a.currentAssetBalance < mx
        · rw [prepareGo, hmx] at h
          dsimp only at h
          rw [if_neg h0, if_pos hbal] at h
          cases h
        · rw [prepareGo, hmx] at h
          dsimp only at h
          rw [if_neg h0, if_neg hbal] at h
          obtain ⟨h1, h2, h3⟩ := ih (t0 + mx) (setKey m0 (convKey a) mx) t m h
          refine ⟨by simp [sumAmts, amtOf, hmx, h0] at h1 ⊢; linarith,
            by rw [h2]; simp [appendConvEntries, hmx, h0], ?_⟩
          intro b hb mx' hbx hx0
          rcases List.mem_cons.mp hb with rfl | hb'
          · rw [hmx] at hbx
            cases hbx
            exact not_lt.mp hbal
          · exact h3 b hb' mx' hbx hx0

/-- Assets whose ids all differ from `i` leave the map entry of `i`
unchanged. -/
theorem appendConvEntries_other :
    ∀ (assets : List Asset) (m : List ((Nat ⊕ String) × ℚ)) (i : Nat),
      (∀ b ∈ assets, ∀ j : Nat, b.id = some j → j ≠ i) →
      alookup (appendConvEntries m assets) (Sum.inl i) = alookup m (Sum.inl i) := by
  intro assets
  induction assets with
  | nil => intro m i _; rfl
  | cons b rest ih =>
    intro m i h
    have hrest : ∀ c ∈ rest, ∀ j : Nat, c.id = some j → j ≠ i := fun c hc =>
      h c (List.mem_cons_of_mem b hc)
    have hkey : convKey b ≠ Sum.inl i := by
      unfold convKey
      cases hbid : b.id with
      | none => simp
      | some j =>
        by_cases hj0 : j = 0
        · subst hj0
          simp
        · have hne : j ≠ i := h b (List.mem_cons_self b rest) j hbid
          simp [hj0, hne]
    cases hmx : b.maxToConvert with
    | none => rw [appendConvEntries, hmx]; exact ih m i hrest
    | some mx =>
      by_cases h0 : mx = 0
      · rw [appendConvEntries, hmx]
        dsimp only
        rw [if_pos h0]
        exact ih m i hrest
      · rw [appendConvEntries, hmx]
        dsimp only
        rw [if_neg h0, ih _ i hrest,
          alookup_setKey_ne m (convKey b) (Sum.inl i) mx hkey]

/-- Map entry of a distinct-id asset after the `prepareGo` pass. -/
theorem appendConvEntries_lookup :
    ∀ (assets : List Asset) (m : List ((Nat ⊕ String) × ℚ)) (a : Asset) (i : Nat),
      a ∈ assets → a.id = some i → i ≠ 0 →
      (assets.filterMap Asset.id).Nodup →
      alookup (appendConvEntries m assets) (Sum.inl i)
        = if amtOf a = 0 then alookup m (Sum.inl i) else some (amtOf a) := by
  intro assets
  induction assets with
  | nil => intro m a i hmem _ _ _; cases hmem
  | cons b rest ih =>
    intro m a i hmem hid hi0 hnd
    rcases List.mem_cons.mp hmem with rfl | hmem'
    · have hcons : (a :: rest).filterMap Asset.id = i :: rest.filterMap Asset.id := by
        simp [List.filterMap_cons, hid]
      rw [hcons] at hnd
      have hnotin := (List.nodup_cons.mp hnd).1
      have hothers : ∀ c ∈ rest, ∀ j : Nat, c.id = some j → j ≠ i := by
        intro c hc j hj hji
        subst hji
        exact hnotin (List.mem_filterMap.mpr ⟨c, hc, hj⟩)
      have hkey : convKey a = Sum.inl i := by
        unfold convKey
        simp [hid, hi0]
      cases hmx : a.maxToConvert with
      | none =>
        rw [appendConvEntries, hmx]
        dsimp only
        rw [appendConvEntries_other rest m i hothers, if_pos (by simp [amtOf, hmx])]
      | some mx =>
        by_cases h0 : mx = 0
        · rw [appendConvEntries, hmx]
          dsimp only
          rw [if_pos h0, appendConvEntries_other rest m i hothers,
            if_pos (by simp [amtOf, hmx, h0])]
        · rw [appendConvEntries, hmx]
          dsimp only
          rw [if_neg h0, appendConvEntries_other rest _ i hothers, hkey,
            alookup_setKey_self m (Sum.inl i) mx,
            if_neg (by simp [amtOf, hmx, h0])]
          simp [amtOf, hmx, h0]
    · have hnd' : (rest.filterMap Asset.id).Nodup := by
        cases hbid : b.id with
        | none => simpa [List.filterMap_cons, hbid] using hnd
        | some j =>
          rw [show (b :: rest).filterMap Asset.id = j :: rest.filterMap Asset.id by
            simp [List.filterMap_cons, hbid]] at hnd
          exact (List.nodup_cons.mp hnd).2
      have hbne : ∀ j : Nat, b.id = some j → j ≠ i := by
        intro j hbid hji
        subst hji
        rw [show (b :: rest).filterMap Asset.id = j :: rest.filterMap Asset.id by
          simp [List.filterMap_cons, hbid]] at hnd
        exact (List.nodup_cons.mp hnd).1 (List.mem_filterMap.mpr ⟨a, hmem', hid⟩)
      have hkey : convKey b ≠ Sum.inl i := by
        unfold convKey
        cases hbid : b.id with
        | none => simp
        | some j =>
          by_cases hj0 : j = 0
          · subst hj0
            simp
          · have hne : j ≠ i := hbne j hbid
            simp [hj0, hne]
      cases hmx : b.maxToConvert with
      | none => rw [appendConvEntries, hmx]; exact ih m a i hmem' hid hi0 hnd'
      | some mx =>
        by_cases h0 : mx = 0
        · rw [appendConvEntries, hmx]
          dsimp only
          rw [if_pos h0]
          exact ih m a i hmem' hid hi0 hnd'
        · rw [appendConvEntries, hmx]
          dsimp only
          rw [if_neg h0, ih _ a i hmem' hid hi0 hnd']
          rw [show alookup (setKey m (convKey b) mx) (Sum.inl i) = alookup m (Sum.inl i) from
            alookup_setKey_ne m (convKey b) (Sum.inl i) mx hkey]

/-- The conversion credits accumulated by one call are the per-asset
credits of the non-synthetic assets. -/
theorem calcAssetsGo_converted (p : Processor) (st : LedgerState) (applyConv : Bool)
    (t : Int) :
    ∀ (assets : List Asset) (acc : CallAcc),
      (calcAssetsGo p st applyConv t assets acc).converted
        = acc.converted
          + ((assets.filter fun a => !a.isSyntheticRoth).map
              fun a => (assetCalc p st applyConv t a).converted).sum := by
  intro assets
  induction assets with
  | nil => intro acc; simp [calcAssetsGo]
  | cons a rest ih =>
    intro acc
    by_cases hsyn : a.isSyntheticRoth = true
    · rw [calcAssetsGo, if_pos hsyn, ih]
      simp [hsyn]
    · rw [calcAssetsGo, if_neg hsyn, ih]
      have hfalse : a.isSyntheticRoth = false := by
        revert hsyn
        cases a.isSyntheticRoth <;> simp
      simp [List.filter_cons, hfalse]
      ring

/-- One conversion-window call on an asset whose starting balance covers
the remaining schedule: exactly the annual share is converted, and the
ending balance still covers the rest of the schedule (no RMDs, growth
non-negative). -/
theorem assetCalc_window_step (p : Processor) (st : LedgerState) (a : Asset) (i : Nat)
    (k : ℕ) (t : Int)
    (hcur : p.currentYear = p.conversionStartYear - 1)
    (ht : t = p.conversionStartYear + (k : Int))
    (hk : (k : Int) < p.yearsToConvert)
    (hreq : requires_rmd a.incomeType = true)
    (hid : a.id = some i) (hi0 : i ≠ 0)
    (hmap : alookup p.assetConversionMap (Sum.inl i)
      = if amtOf a = 0 then none else some (amtOf a))
    (hrmdz : ∀ (b : ℚ) (age : Int),
      calculate_rmd_for_asset p.rmdTable p.client p.spouse a b age = 0)
    (hrate : 0 ≤ normalizedRate a.rateOfReturn)
    (hamt : 0 ≤ amtOf a)
    (bal : ℚ)
    (hstart : startingBalance p st t a = (bal, t - 1))
    (hbal : ((p.yearsToConvert - (k : Int) : Int) : ℚ)
        * (amtOf a / (p.yearsToConvert : ℚ)) ≤ bal) :
    (assetCalc p st true t a).converted = amtOf a / (p.yearsToConvert : ℚ)
    ∧ ((p.yearsToConvert - (k : Int) - 1 : Int) : ℚ)
        * (amtOf a / (p.yearsToConvert : ℚ)) ≤ (assetCalc p st true t a).endBal := by
  have hYQ : (0 : ℚ) < (p.yearsToConvert : ℚ) := by
    exact_mod_cast (by omega : (0 : Int) < p.yearsToConvert)
  have hshare : 0 ≤ amtOf a / (p.yearsToConvert : ℚ) := div_nonneg hamt hYQ.le
  have hcoef : (1 : ℚ) ≤ ((p.yearsToConvert - (k : Int) : Int) : ℚ) := by
    exact_mod_cast (by omega : (1 : Int) ≤ p.yearsToConvert - (k : Int))
  have hbal1 : amtOf a / (p.yearsToConvert : ℚ) ≤ bal := by
    calc amtOf a / (p.yearsToConvert : ℚ)
        = 1 * (amtOf a / (p.yearsToConvert : ℚ)) := (one_mul _).symm
      _ ≤ ((p.yearsToConvert - (k : Int) : Int) : ℚ) * (amtOf a / (p.yearsToConvert : ℚ)) :=
          mul_le_mul_of_nonneg_right hcoef hshare
      _ ≤ bal := hbal
  have htne : t ≠ p.currentYear := by
    rw [ht, hcur]
    omega
  have hwin : inConversionWindow p t = true := by
    unfold inConversionWindow
    rw [ht]
    simp only [Bool.and_eq_true, decide_eq_true_eq]
    omega
  have hc : assetAnnualConversionFor p true a t bal = amtOf a / (p.yearsToConvert : ℚ) := by
    by_cases h0 : amtOf a = 0
    · rw [if_pos h0] at hmap
      rw [h0]
      simp [assetAnnualConversionFor, hreq, hwin, hid, hi0, hmap]
    · rw [if_neg h0] at hmap
      rw [assetAnnualConversionFor_enabled p a t bal i (amtOf a) hreq hwin hid hi0 hmap]
      exact min_eq_left hbal1
  have hc0 : 0 ≤ assetAnnualConversionFor p true a t bal := by
    rw [hc]
    exact hshare
  have ht1 : t - (t - 1) = 1 := by ring
  have ht2 : t - 1 + 1 = t := by ring
  have hstep : assetCalc p st true t a
      = { startBal := bal, projStart := t - 1,
          endBal := (bal - amtOf a / (p.yearsToConvert : ℚ))
            * (1 + normalizedRate a.rateOfReturn),
          converted := amtOf a / (p.yearsToConvert : ℚ),
          targetRmd := 0 } := by
    simp only [assetCalc, hstart, if_neg htne, ht1]
    rw [show ((1 : Int).toNat) = 1 from rfl]
    rw [projectLoop, ht2, projectLoop]
    rw [projectionStep_eq p true a t ⟨bal, bal, 0⟩ hc0 (by rw [hrmdz])]
    simp only [hc, hrmdz, sub_zero, zero_add]
    simp
  rw [hstep]
  refine ⟨rfl, ?_⟩
  have h3 : ((p.yearsToConvert - (k : Int) - 1 : Int) : ℚ)
      * (amtOf a / (p.yearsToConvert : ℚ)) ≤ bal - amtOf a / (p.yearsToConvert : ℚ) := by
    have hexp : ((p.yearsToConvert - (k : Int) : Int) : ℚ)
          * (amtOf a / (p.yearsToConvert : ℚ)) - amtOf a / (p.yearsToConvert : ℚ)
        = ((p.yearsToConvert - (k : Int) - 1 : Int) : ℚ)
          * (amtOf a / (p.yearsToConvert : ℚ)) := by
      push_cast
      ring
    linarith
  have h4 : 0 ≤ bal - amtOf a / (p.yearsToConvert : ℚ) := by
    have hz : (0 : ℚ) ≤ ((p.yearsToConvert - (k : Int) - 1 : Int) : ℚ) := by
      exact_mod_cast (by omega : (0 : Int) ≤ p.yearsToConvert - (k : Int) - 1)
    exact le_trans (mul_nonneg hz hshare) h3
  calc ((p.yearsToConvert - (k : Int) - 1 : Int) : ℚ) * (amtOf a / (p.yearsToConvert : ℚ))
      ≤ bal - amtOf a / (p.yearsToConvert : ℚ) := h3
    _ ≤ (bal - amtOf a / (p.yearsToConvert : ℚ)) * (1 + normalizedRate a.rateOfReturn) := by
        nlinarith [mul_nonneg h4 hrate]
    _ = (bal - amtOf a / (p.yearsToConvert : ℚ)) * (1 + normalizedRate a.rateOfReturn) := rfl

/-- Pointwise-equal functions give equal maps. -/
theorem map_congr_member {α β : Type} :
    ∀ (l : List α) (f g : α → β), (∀ a ∈ l, f a = g a) → l.map f = l.map g := by
  intro l
  induction l with
  | nil => intro f g _; rfl
  | cons a rest ih =>
    intro f g h
    simp only [List.map_cons, h a (List.mem_cons_self a rest),
      ih f g fun b hb => h b (List.mem_cons_of_mem a hb)]

/-- Multiplying the summed annual shares by the year count recovers the
summed totals. -/
theorem sum_shares_mul (y : ℚ) (hy : y ≠ 0) :
    ∀ (assets : List Asset), ((assets.map fun a => amtOf a / y).sum) * y = sumAmts assets := by
  intro assets
  induction assets with
  | nil => simp [sumAmts]
  | cons a rest ih =>
    simp only [List.map_cons, List.sum_cons, sumAmts, add_mul] at ih ⊢
    rw [ih, div_mul_cancel₀ _ hy]

/-- The conversion-window run: starting from balances that cover the
schedule, each of the remaining `n` window years converts exactly the
per-asset annual share. -/
theorem runYears_window_total (p : Processor) (assets0 : List Asset)
    (hassets : p.assets = assets0 ++ [syntheticRothAsset p.rothGrowthRate])
    (hcur : p.currentYear = p.conversionStartYear - 1)
    (hsyn0 : ∀ a ∈ assets0, a.isSyntheticRoth = false)
    (hnd : (assets0.filterMap Asset.id).Nodup)
    (hfacts : ∀ a ∈ assets0, ∃ i : Nat, a.id = some i ∧ i ≠ 0
      ∧ alookup p.assetConversionMap (Sum.inl i)
          = if amtOf a = 0 then none else some (amtOf a))
    (hreq : ∀ a ∈ assets0, requires_rmd a.incomeType = true)
    (hrmdz : ∀ a ∈ assets0, ∀ (b : ℚ) (age : Int),
      calculate_rmd_for_asset p.rmdTable p.client p.spouse a b age = 0)
    (hrate : ∀ a ∈ assets0, 0 ≤ normalizedRate a.rateOfReturn)
    (hamt : ∀ a ∈ assets0, 0 ≤ amtOf a) :
    ∀ (n k : ℕ) (st : LedgerState),
      (k : Int) + n = p.yearsToConvert →
      (∀ a ∈ assets0, ∃ bal : ℚ,
        startingBalance p st (p.conversionStartYear + (k : Int)) a
            = (bal, p.conversionStartYear + (k : Int) - 1)
        ∧ ((p.yearsToConvert - (k : Int) : Int) : ℚ) * (amtOf a / (p.yearsToConvert : ℚ))
            ≤ bal) →
      (runYears p st (p.conversionStartYear + (k : Int)) n).1
        = (n : ℚ) * ((assets0.map fun a => amtOf a / (p.yearsToConvert : ℚ)).sum) := by
  intro n
  induction n with
  | zero =>
    intro k st _ _
    simp [runYears]
  | succ m ih =>
    intro k st hkn hInv
    have hk : (k : Int) < p.yearsToConvert := by omega
    have hper : ∀ a ∈ assets0,
        (assetCalc p st true (p.conversionStartYear + (k : Int)) a).converted
            = amtOf a / (p.yearsToConvert : ℚ)
        ∧ ((p.yearsToConvert - (k : Int) - 1 : Int) : ℚ)
            * (amtOf a / (p.yearsToConvert : ℚ))
          ≤ (assetCalc p st true (p.conversionStartYear + (k : Int)) a).endBal := by
      intro a ha
      obtain ⟨i, hid, hi0, hmap⟩ := hfacts a ha
      obtain ⟨bal, hstart, hbound⟩ := hInv a ha
      exact assetCalc_window_step p st a i k (p.conversionStartYear + (k : Int)) hcur rfl hk
        (hreq a ha) hid hi0 hmap (hrmdz a ha) (hrate a ha) (hamt a ha) bal hstart hbound
    have hfilter : (p.assets.filter fun a => !a.isSyntheticRoth) = assets0 := by
      rw [hassets, List.filter_append]
      have h1 : assets0.filter (fun a => !a.isSyntheticRoth) = assets0 :=
        List.filter_eq_self.mpr (by intro a ha; simp [hsyn0 a ha])
      have h2 : ([syntheticRothAsset p.rothGrowthRate].filter
          fun a => !a.isSyntheticRoth) = [] := by
        simp [syntheticRothAsset]
      rw [h1, h2, List.append_nil]
    have hconv : (calcBalances p st (p.conversionStartYear + (k : Int)) true).1.converted
        = (assets0.map fun a => amtOf a / (p.yearsToConvert : ℚ)).sum := by
      simp only [calcBalances]
      rw [calcAssetsGo_converted, hfilter]
      rw [map_congr_member assets0 _ _ fun a ha => (hper a ha).1]
      simp
    have hInv' : ∀ a ∈ assets0, ∃ bal : ℚ,
        startingBalance p (calcBalances p st (p.conversionStartYear + (k : Int)) true).2
            (p.conversionStartYear + ((k + 1 : ℕ) : Int)) a
          = (bal, p.conversionStartYear + ((k + 1 : ℕ) : Int) - 1)
        ∧ ((p.yearsToConvert - ((k + 1 : ℕ) : Int) : Int) : ℚ)
            * (amtOf a / (p.yearsToConvert : ℚ)) ≤ bal := by
      intro a ha
      obtain ⟨i, hid, hi0, hmap⟩ := hfacts a ha
      have hmem' : a ∈ p.assets := by
        rw [hassets]
        exact List.mem_append_left _ ha
      have hndp : (p.assets.filterMap Asset.id).Nodup := by
        rw [hassets]
        simpa [List.filterMap_append, syntheticRothAsset] using hnd
      have hsb := (calcBalances_stored p st (p.conversionStartYear + (k : Int)) a i hmem'
        (hsyn0 a ha) hid hndp).2 a hid
      refine ⟨(assetCalc p st true (p.conversionStartYear + (k : Int)) a).endBal, ?_, ?_⟩
      · rw [show p.conversionStartYear + ((k + 1 : ℕ) : Int)
            = p.conversionStartYear + (k : Int) + 1 by push_cast; ring]
        rw [hsb]
        simp only [Prod.mk.injEq]
        exact ⟨trivial, by omega⟩
      · rw [show ((p.yearsToConvert - ((k + 1 : ℕ) : Int) : Int) : ℚ)
            = ((p.yearsToConvert - (k : Int) - 1 : Int) : ℚ) by push_cast; ring]
        exact (hper a ha).2
    have hnext := ih (k + 1) (calcBalances p st (p.conversionStartYear + (k : Int)) true).2
      (by push_cast; push_cast at hkn; linarith) hInv'
    rw [show p.conversionStartYear + ((k + 1 : ℕ) : Int)
        = p.conversionStartYear + (k : Int) + 1 by push_cast; ring] at hnext
    rw [runYears, hconv, hnext]
    push_cast
    ring

/-- C5 (amended): the total actually converted over the full (possibly
cap-extended) schedule equals the configured total — the sum of the
per-asset `max_to_convert` amounts — provided every scheduled asset is
RMD-eligible with a recorded nonzero id, its growth rate is
non-negative, and no RMD falls due during the window; otherwise the
conversion is silently capped at the remaining balance and the shortfall
is lost. -/
theorem claim_C5_total_converted_amended (p : Processor) (assets0 : List Asset)
    (annual tot : ℚ) (origYears : Int)
    (hprep : prepare_assets_for_conversion assets0 origYears p.maxAnnualAmount p.rothGrowthRate
      = .ok (annual, tot, p.assetConversionMap, p.yearsToConvert, p.assets))
    (hcur : p.currentYear = p.conversionStartYear - 1)
    (horig : 1 ≤ origYears)
    (hsyn0 : ∀ a ∈ assets0, a.isSyntheticRoth = false)
    (hids : ∀ a ∈ assets0, ∃ i : Nat, a.id = some i ∧ i ≠ 0)
    (hnd : (assets0.filterMap Asset.id).Nodup)
    (hreq : ∀ a ∈ assets0, requires_rmd a.incomeType = true)
    (hrmdz : ∀ a ∈ assets0, ∀ (b : ℚ) (age : Int),
      calculate_rmd_for_asset p.rmdTable p.client p.spouse a b age = 0)
    (hrate : ∀ a ∈ assets0, 0 ≤ normalizedRate a.rateOfReturn)
    (hbal0 : ∀ a ∈ assets0, 0 ≤ a.currentAssetBalance)
    (hamt0 : ∀ a ∈ assets0, ∀ mx : ℚ, a.maxToConvert = some mx → 0 ≤ mx) :
    (runYears p ⟨[], []⟩ p.conversionStartYear p.yearsToConvert.toNat).1 = tot := by
  cases hgo : prepareGo assets0 0 [] with
  | error e =>
    rw [prepare_assets_for_conversion, hgo] at hprep
    cases hprep
  | ok pr =>
    obtain ⟨t0, m⟩ := pr
    obtain ⟨hgo1, hgo2, hgo3⟩ := prepareGo_ok assets0 0 [] t0 m hgo
    rw [prepare_assets_for_conversion, hgo] at hprep
    dsimp only at hprep
    simp only [Except.ok.injEq, Prod.mk.injEq] at hprep
    obtain ⟨h1, h2, h3, h4, h5⟩ := hprep
    have hY1 : 1 ≤ p.yearsToConvert := by
      rw [← h4]
      split
      · dsimp only
        split <;> omega
      · dsimp only
        omega
    have hYne : ((p.yearsToConvert : ℚ)) ≠ 0 := by
      have : (0 : Int) < p.yearsToConvert := by omega
      exact_mod_cast (by exact_mod_cast this.ne' : (p.yearsToConvert : ℚ) ≠ 0)
    have hamt : ∀ a ∈ assets0, 0 ≤ amtOf a := by
      intro a ha
      unfold amtOf
      cases hmx : a.maxToConvert with
      | none => exact le_refl 0
      | some mx =>
        by_cases h0 : mx = 0
        · simp [h0]
        · simp only [if_neg h0]
          exact hamt0 a ha mx hmx
    have hamtle : ∀ a ∈ assets0, amtOf a ≤ a.currentAssetBalance := by
      intro a ha
      unfold amtOf
      cases hmx : a.maxToConvert with
      | none => exact hbal0 a ha
      | some mx =>
        by_cases h0 : mx = 0
        · simp only [if_pos h0]
          exact hbal0 a ha
        · simp only [if_neg h0]
          exact hgo3 a ha mx hmx h0
    have hfacts : ∀ a ∈ assets0, ∃ i : Nat, a.id = some i ∧ i ≠ 0
        ∧ alookup p.assetConversionMap (Sum.inl i)
            = if amtOf a = 0 then none else some (amtOf a) := by
      intro a ha
      obtain ⟨i, hid, hi0⟩ := hids a ha
      refine ⟨i, hid, hi0, ?_⟩
      rw [← h3, hgo2, appendConvEntries_lookup assets0 [] a i ha hid hi0 hnd]
      rfl
    have hInv0 : ∀ a ∈ assets0, ∃ bal : ℚ,
        startingBalance p ⟨[], []⟩ (p.conversionStartYear + ((0 : ℕ) : Int)) a
            = (bal, p.conversionStartYear + ((0 : ℕ) : Int) - 1)
        ∧ ((p.yearsToConvert - ((0 : ℕ) : Int) : Int) : ℚ)
            * (amtOf a / (p.yearsToConvert : ℚ)) ≤ bal := by
      intro a ha
      refine ⟨a.currentAssetBalance, ?_, ?_⟩
      · simp only [startingBalance, alookup]
        rw [hcur]
        simp only [Prod.mk.injEq]
        exact ⟨trivial, by omega⟩
      · have : ((p.yearsToConvert - ((0 : ℕ) : Int) : Int) : ℚ)
            * (amtOf a / (p.yearsToConvert : ℚ)) = amtOf a := by
          push_cast
          rw [sub_zero, mul_comm, div_mul_cancel₀ _ hYne]
        rw [this]
        exact hamtle a ha
    have hrun := runYears_window_total p assets0 (by rw [← h5]) hcur hsyn0 hnd hfacts hreq
      hrmdz hrate hamt p.yearsToConvert.toNat 0 ⟨[], []⟩ (by omega) hInv0
    rw [show p.conversionStartYear + ((0 : ℕ) : Int) = p.conversionStartYear by
      push_cast; ring] at hrun
    rw [hrun]
    have hcast : ((p.yearsToConvert.toNat : ℕ) : ℚ) = (p.yearsToConvert : ℚ) := by
      have := Int.toNat_of_nonneg (by omega : (0 : Int) ≤ p.yearsToConvert)
      exact_mod_cast congrArg (fun z : Int => (z : ℚ)) this
    rw [hcast, mul_comm, sum_shares_mul _ hYne]
    rw [← h2, hgo1, sumAmts]
    simp

/-- The original C5 claim fails on the code: with the 2025-2026 schedule
of `rmdDepletionProcessor` the configured total is 100000, but the RMDs
deplete the balance below the scheduled annual 50000, so only
50000 + 36000 = 86000 is actually converted. -/
theorem claim_C5_counterexample :
    prepare_assets_for_conversion [depletedQualifiedAsset] 2 0 5
      = .ok (50000, 100000, [(Sum.inl 1, 100000)], 2,
          [depletedQualifiedAsset, syntheticRothAsset 5])
    ∧ (runYears rmdDepletionProcessor ⟨[], []⟩ 2025 2).1 = 86000
    ∧ (86000 : ℚ) ≠ 100000 := by
  refine ⟨?_, ?_, by norm_num⟩
  · norm_num [prepare_assets_for_conversion, prepareGo, setKey, convKey,
      depletedQualifiedAsset, syntheticRothAsset]
  · have hreq : requires_rmd qualifiedStr = true := by decide
    norm_num [runYears, calcBalances, calcAssetsGo, assetCalc, startingBalance, alookup,
      projectLoop, projectionStep, assetAnnualConversionFor, calculate_rmd_for_asset, hreq,
      ownerBirthYear, normalizedRate, clientBirthYearForAge, inConversionWindow, setKey,
      get_rmd_start_age, rmdDepletionProcessor, depletedQualifiedAsset, smallRmdTable,
      syntheticRothAsset]

/-- Witness for the amended C5: with no RMDs in play the same schedule
converts its full configured total of 100000. -/
theorem claim_C5_witness :
    (runYears cleanConversionProcessor ⟨[], []⟩ 2025 2).1 = 100000 := by
  have h := claim_C5_total_converted_amended cleanConversionProcessor [depletedQualifiedAsset]
    50000 100000 2
    (by norm_num [cleanConversionProcessor, prepare_assets_for_conversion, prepareGo,
      setKey, convKey, depletedQualifiedAsset, syntheticRothAsset])
    (by decide) (by norm_num)
    (by intro a ha; rw [List.mem_singleton] at ha; subst ha; decide)
    (by intro a ha; rw [List.mem_singleton] at ha; subst ha; exact ⟨1, rfl, by decide⟩)
    (by decide)
    (by intro a ha; rw [List.mem_singleton] at ha; subst ha; decide)
    (by intro a ha; rw [List.mem_singleton] at ha; subst ha; intro b age; rfl)
    (by intro a ha; rw [List.mem_singleton] at ha; subst ha; decide)
    (by intro a ha; rw [List.mem_singleton] at ha; subst ha; decide)
    (by intro a ha; rw [List.mem_singleton] at ha; subst ha; intro mx hmx; injection hmx
        with hmx'; rw [← hmx']; decide)
  exact h

theorem wfEstate_cons {b b' : EstateBracket} {rest : List EstateBracket}
    (h : wfEstate (b :: b' :: rest) = true) :
    0 ≤ b.incomeMin ∧ b.incomeMin < b.incomeMax ∧ b.incomeMax = b'.incomeMin
      ∧ wfEstate (b' :: rest) = true := by
  simp only [wfEstate, Bool.and_eq_true, decide_eq_true_eq] at h
  tauto

theorem wfEstate_single {b : EstateBracket} (h : wfEstate [b] = true) :
    0 ≤ b.incomeMin ∧ b.incomeMin < b.incomeMax := by
  simp only [wfEstate, Bool.and_eq_true, decide_eq_true_eq] at h
  tauto

/-- Every later bracket's lower bound is at least the head's upper
bound. -/
theorem wfEstate_tail_ge :
    ∀ (x : EstateBracket) (xs : List EstateBracket), wfEstate (x :: xs) = true →
      ∀ c ∈ xs, x.incomeMax ≤ c.incomeMin := by
  intro x xs
  induction xs generalizing x with
  | nil => intro _ c hc; cases hc
  | cons y ys ih =>
    intro h c hc
    obtain ⟨_, hlt, hchain, hwf'⟩ := wfEstate_cons h
    rcases List.mem_cons.mp hc with rfl | hc'
    · exact le_of_eq hchain
    · have hy := ih y hwf' c hc'
      have : y.incomeMin < y.incomeMax := by
        cases ys with
        | nil => cases hc'
        | cons z zs => exact (wfEstate_cons hwf').2.1
      calc x.incomeMax = y.incomeMin := hchain
        _ ≤ y.incomeMax := le_of_lt this
        _ ≤ c.incomeMin := hy

/-- The estate bracket walk lands on the containing bracket's formula
`base_tax + rate × (value − bracket_min)`. -/
theorem estateTaxGo_containing :
    ∀ (brackets : List EstateBracket) (v tax : ℚ) (b : EstateBracket),
      wfEstate brackets = true → b ∈ brackets →
      b.incomeMin < v → v ≤ b.incomeMax →
      estateTaxGo v brackets tax = b.baseTax + (v - b.incomeMin) * b.rate := by
  intro brackets
  induction brackets with
  | nil => intro v tax b _ hb; cases hb
  | cons hd rest ih =>
    intro v tax b hwf hb hlo hhi
    rcases List.mem_cons.mp hb with rfl | hb'
    · rw [estateTaxGo, if_neg (not_le.mpr hlo)]
      have hmin : min (v - b.incomeMin) (b.incomeMax - b.incomeMin) = v - b.incomeMin :=
        min_eq_left (by linarith)
      rw [hmin, if_pos hhi]
    · have hge : hd.incomeMax ≤ b.incomeMin := wfEstate_tail_ge hd rest hwf b hb'
      have hv : hd.incomeMax < v := lt_of_le_of_lt hge hlo
      have hdlt : hd.incomeMin < hd.incomeMax := by
        cases rest with
        | nil => cases hb'
        | cons y ys => exact (wfEstate_cons hwf).2.1
      have hwf' : wfEstate rest = true := by
        cases rest with
        | nil => cases hb'
        | cons y ys => exact (wfEstate_cons hwf).2.2.2
      rw [estateTaxGo, if_neg (not_le.mpr (by linarith)), if_neg (not_le.mpr hv)]
      exact ih v _ b hwf' hb' hlo hhi

/-- Replacing a bound value changes the value sum accordingly. -/
theorem sumVals_setKey :
    ∀ (m : List (String × ℚ)) (k : String) (old w : ℚ),
      alookup m k = some old → sumVals (setKey m k w) = sumVals m - old + w := by
  intro m
  induction m with
  | nil => intro k old w h; cases h
  | cons p rest ih =>
    obtain ⟨a, b⟩ := p
    intro k old w h
    by_cases hak : a = k
    · subst hak
      rw [alookup, if_pos rfl] at h
      injection h with h
      subst h
      simp [setKey, sumVals]
      ring
    · rw [alookup, if_neg hak] at h
      simp only [setKey, if_neg hak]
      simp only [sumVals, List.map_cons, List.sum_cons] at ih ⊢
      rw [ih k old w h]
      ring

theorem sumVals_append_single (m : List (String × ℚ)) (k : String) (v : ℚ) :
    sumVals (m ++ [(k, v)]) = sumVals m + v := by
  simp [sumVals]

/-- Crediting a category adds its balance to the bucket's value sum. -/
theorem sumVals_addToCat (m : List (String × ℚ)) (cat : String) (v : ℚ) :
    sumVals (addToCat m cat v) = sumVals m + v := by
  unfold addToCat
  cases h : alookup m cat with
  | none => exact sumVals_append_single m cat v
  | some old =>
    rw [sumVals_setKey m cat old (old + v) h]
    ring

/-- The bucket totals of the `get_taxable_assets` scan equal the sums of
the deduplicated positive balance fields classified taxable /
non-taxable. -/
theorem getTaxableAssetsGo_totals :
    ∀ (entries : List (String × ℚ)) (processed : List String) (tx ntx : List (String × ℚ)),
      sumVals (getTaxableAssetsGo entries processed tx ntx).1
          = sumVals tx
            + (((dedupByLower (entries.filter fun kv =>
                  strEndsWith kv.1 balanceSuffixStr && decide (0 < kv.2)) processed).filter
                isTaxableEntry).map Prod.snd).sum
      ∧ sumVals (getTaxableAssetsGo entries processed tx ntx).2
          = sumVals ntx
            + (((dedupByLower (entries.filter fun kv =>
                  strEndsWith kv.1 balanceSuffixStr && decide (0 < kv.2)) processed).filter
                isNonTaxableEntry).map Prod.snd).sum := by
  intro entries
  induction entries with
  | nil =>
    intro processed tx ntx
    simp [getTaxableAssetsGo, dedupByLower]
  | cons p rest ih =>
    obtain ⟨k, v⟩ := p
    intro processed tx ntx
    by_cases hend : strEndsWith k balanceSuffixStr = true
    · by_cases hv : v ≤ 0
      · have hbool : (strEndsWith k balanceSuffixStr && decide (0 < v)) = false := by
          simp [not_lt.mpr hv]
        rw [getTaxableAssetsGo, if_neg (by simp [hend]), if_pos hv]
        simpa [List.filter_cons, hbool] using ih processed tx ntx
      · push_neg at hv
        have hbool : (strEndsWith k balanceSuffixStr && decide (0 < v)) = true := by
          simp [hend, hv]
        by_cases hmem : strToLower k ∈ processed
        · rw [getTaxableAssetsGo, if_neg (by simp [hend]), if_neg (not_le.mpr hv),
            if_pos hmem]
          simpa [List.filter_cons, hbool, dedupByLower, hmem] using ih processed tx ntx
        · rw [getTaxableAssetsGo, if_neg (by simp [hend]), if_neg (not_le.mpr hv),
            if_neg hmem]
          have hded : dedupByLower (((k, v) :: rest).filter fun kv =>
                strEndsWith kv.1 balanceSuffixStr && decide (0 < kv.2)) processed
              = (k, v) :: dedupByLower (rest.filter fun kv =>
                  strEndsWith kv.1 balanceSuffixStr && decide (0 < kv.2))
                  (strToLower k :: processed) := by
            simp [List.filter_cons, hbool, dedupByLower, hmem]
          rw [hded]
          cases hcl : classifyKeyLower (strToLower k) with
          | none =>
            have htax : isTaxableEntry (k, v) = false := by
              simp [isTaxableEntry, hcl]
            have hntax : isNonTaxableEntry (k, v) = false := by
              simp [isNonTaxableEntry, hcl]
            simpa [List.filter_cons, htax, hntax] using
              ih (strToLower k :: processed) tx ntx
          | some cls =>
            obtain ⟨flag, cat⟩ := cls
            cases flag with
            | true =>
              have htax : isTaxableEntry (k, v) = true := by
                simp [isTaxableEntry, hcl]
              have hntax : isNonTaxableEntry (k, v) = false := by
                simp [isNonTaxableEntry, hcl]
              have hih := ih (strToLower k :: processed) (addToCat tx cat v) ntx
              refine ⟨?_, ?_⟩
              · rw [hih.1, sumVals_addToCat]
                simp [List.filter_cons, htax]
                ring
              · rw [hih.2]
                simp [List.filter_cons, hntax]
            | false =>
              have htax : isTaxableEntry (k, v) = false := by
                simp [isTaxableEntry, hcl]
              have hntax : isNonTaxableEntry (k, v) = true := by
                simp [isNonTaxableEntry, hcl]
              have hih := ih (strToLower k :: processed) tx (addToCat ntx cat v)
              refine ⟨?_, ?_⟩
              · rw [hih.1]
                simp [List.filter_cons, htax]
              · rw [hih.2, sumVals_addToCat]
                simp [List.filter_cons, hntax]
                ring
    · have hbool : (strEndsWith k balanceSuffixStr && decide (0 < v)) = false := by
        simp [hend]
      rw [getTaxableAssetsGo, if_pos (by simp [hend])]
      simpa [List.filter_cons, hbool] using ih processed tx ntx

/-- Every bracket of a well-formed estate table has a non-negative lower
bound. -/
theorem wfEstate_mem_nonneg :
    ∀ (brackets : List EstateBracket), wfEstate brackets = true →
      ∀ b ∈ brackets, 0 ≤ b.incomeMin := by
  intro brackets
  induction brackets with
  | nil => intro _ b hb; cases hb
  | cons hd rest ih =>
    intro hwf b hb
    rcases List.mem_cons.mp hb with rfl | hb'
    · cases rest with
      | nil => exact (wfEstate_single hwf).1
      | cons y ys => exact (wfEstate_cons hwf).1
    · cases rest with
      | nil => cases hb'
      | cons y ys => exact ih (wfEstate_cons hwf).2.2.2 b hb'

/-- C9: on the final year record every recognised balance field is
classified by category into the taxable or non-taxable bucket with
case-insensitive duplicates counted once; the estate-tax bracket formula
`base_tax + rate × (amount − bracket_min)` is applied to the taxable
total only; and `net_to_heirs = total_estate − estate_tax`. -/
theorem claim_C9_inheritance_report (yearData : List (String × ℚ))
    (brackets : List EstateBracket) (hwf : wfEstate brackets = true) :
    (generate_inheritance_report brackets yearData).totalTaxableEstate
        = specTotalTaxable yearData
    ∧ (generate_inheritance_report brackets yearData).totalNonTaxableEstate
        = specTotalNonTaxable yearData
    ∧ (generate_inheritance_report brackets yearData).totalEstateValue
        = specTotalTaxable yearData + specTotalNonTaxable yearData
    ∧ (generate_inheritance_report brackets yearData).netToHeirs
        = (generate_inheritance_report brackets yearData).totalEstateValue
          - (generate_inheritance_report brackets yearData).estateTax
    ∧ (∀ b ∈ brackets, b.incomeMin < specTotalTaxable yearData →
        specTotalTaxable yearData ≤ b.incomeMax →
        (generate_inheritance_report brackets yearData).estateTax
          = b.baseTax + (specTotalTaxable yearData - b.incomeMin) * b.rate) := by
  have hgo := getTaxableAssetsGo_totals yearData [] [] []
  have htx : (get_taxable_assets yearData).totalTaxable = specTotalTaxable yearData := by
    unfold get_taxable_assets specTotalTaxable specEntries
    simpa [sumVals] using hgo.1
  have hntx : (get_taxable_assets yearData).totalNonTaxable
      = specTotalNonTaxable yearData := by
    unfold get_taxable_assets specTotalNonTaxable specEntries
    simpa [sumVals] using hgo.2
  have htot : (get_taxable_assets yearData).totalEstate
      = specTotalTaxable yearData + specTotalNonTaxable yearData := by
    rw [← htx, ← hntx]
    rfl
  refine ⟨by simp [generate_inheritance_report, htx], by simp [generate_inheritance_report, hntx],
    by simp [generate_inheritance_report, htot], by simp [generate_inheritance_report], ?_⟩
  intro b hb hlo hhi
  have hpos : 0 < specTotalTaxable yearData :=
    lt_of_le_of_lt (wfEstate_mem_nonneg brackets hwf b hb) hlo
  have hItax : (generate_inheritance_report brackets yearData).estateTax
      = calculate_estate_tax brackets (specTotalTaxable yearData) := by
    simp [generate_inheritance_report, calculate_inheritance_tax, htx, not_le.mpr hpos]
  rw [hItax]
  cases brackets with
  | nil => cases hb
  | cons hd rest =>
    rw [show calculate_estate_tax (hd :: rest) (specTotalTaxable yearData)
        = estateTaxGo (specTotalTaxable yearData) (hd :: rest) 0 from rfl]
    exact estateTaxGo_containing (hd :: rest) (specTotalTaxable yearData) 0 b hwf hb hlo hhi

/-- Witness for C9 on the sample record: the 250000 case-duplicate is
counted once, the numeric-id and non-balance fields are excluded, the
second bracket's formula applies, and net-to-heirs is the difference. -/
theorem claim_C9_witness :
    (generate_inheritance_report sampleEstateBrackets sampleFinalYear).totalTaxableEstate
        = 500100
    ∧ (generate_inheritance_report sampleEstateBrackets sampleFinalYear).estateTax = 90020
    ∧ (generate_inheritance_report sampleEstateBrackets sampleFinalYear).netToHeirs
        = 510080 := by
  have h := claim_C9_inheritance_report sampleFinalYear sampleEstateBrackets (by decide)
  have hentries : specEntries sampleFinalYear
      = [("qualified_balance", 500000), ("roth_ira_balance", 100000),
         ("262_balance", 50), ("non_qualified_balance", 100)] := by decide
  have ht1 : isTaxableEntry ("qualified_balance", (500000 : ℚ)) = true := by decide
  have ht2 : isTaxableEntry ("roth_ira_balance", (100000 : ℚ)) = false := by decide
  have ht3 : isTaxableEntry ("262_balance", (50 : ℚ)) = false := by decide
  have ht4 : isTaxableEntry ("non_qualified_balance", (100 : ℚ)) = true := by decide
  have hn1 : isNonTaxableEntry ("qualified_balance", (500000 : ℚ)) = false := by decide
  have hn2 : isNonTaxableEntry ("roth_ira_balance", (100000 : ℚ)) = true := by decide
  have hn3 : isNonTaxableEntry ("262_balance", (50 : ℚ)) = false := by decide
  have hn4 : isNonTaxableEntry ("non_qualified_balance", (100 : ℚ)) = false := by decide
  have htax : specTotalTaxable sampleFinalYear = 500100 := by
    rw [specTotalTaxable, hentries]
    simp [List.filter, ht1, ht2, ht3, ht4]
    norm_num
  have hntax : specTotalNonTaxable sampleFinalYear = 100000 := by
    rw [specTotalNonTaxable, hentries]
    simp [List.filter, hn1, hn2, hn3, hn4]
  have hmem : (⟨100000, 999999999, 2 / 10, 10000⟩ : EstateBracket) ∈ sampleEstateBrackets := by
    simp [sampleEstateBrackets]
  have hest := h.2.2.2.2 ⟨100000, 999999999, 2 / 10, 10000⟩ hmem
    (by rw [htax]; norm_num) (by rw [htax]; norm_num)
  refine ⟨by rw [h.1, htax], ?_, ?_⟩
  · rw [hest, htax]
    norm_num
  · rw [h.2.2.2.1, h.2.2.1, htax, hntax, hest, htax]
    norm_num
